import Mathlib

/-!
# Verification of the `based-uno` turn engine

Shallow embedding of the Uno-variant card game implemented in
`uno_game/src/{card,deck,player,actions,game}.py`, together with proofs of the
specification's claims about it.

Modelling conventions:

* Python lists are Lean `List`s; both piles keep the *top at the end* exactly
  as in `deck.py` (`pop()` / `append`).
* Machine integers that can be negative (externally supplied indices, the
  play direction) are `Int`; internal non-negative quantities are `Nat`.
* Python exceptions (`ValueError` from `Card.matches`, `IndexError` /
  `KeyError` from raw subscripting) are explicit: fallible functions return
  `Except String _`, and the turn entry points return an outcome value with a
  dedicated exception constructor carrying the state at raise time.
* `random.shuffle`, `random.randint` and `random.choice` are modelled by an
  explicit oracle (`Rand`) passed to every function that consumes randomness;
  theorems that need facts about shuffling (length / multiset preservation)
  take them as hypotheses on the oracle.
* `Card.active_color` is *not* modelled: in the source it is written in
  several places but only ever read by `__str__` / display code, never by any
  rule; `UnoGame.current_wild_color` (modelled) is what the rules consult.
  Likewise all message strings are dropped: they are display only.
-/

namespace BasedUno

/-- `card.py` `Color`. -/
inductive Color where
  | red
  | yellow
  | green
  | blue
  | wild
deriving DecidableEq, Repr

/-- `card.py` `Rank`. -/
inductive Rank where
  | zero
  | one
  | two
  | three
  | four
  | five
  | six
  | seven
  | eight
  | nine
  | drawTwo
  | skip
  | reverse
  | wild
  | wildDrawFour
deriving DecidableEq, Repr

/-- `card.py` `Card`: intrinsic color and rank.  `active_color` is display
only (see module docstring) and is omitted.  Python `Card.__eq__` compares
exactly `(color, rank)`, which is structural equality here. -/
structure Card where
  color : Color
  rank : Rank
deriving DecidableEq, Repr

/-- `Card.is_wild`. -/
def Card.isWild (c : Card) : Bool :=
  c.rank == Rank.wild || c.rank == Rank.wildDrawFour

/-- `Card.matches(self, other_card, current_color_chosen_for_wild)`.
`Except.error` models the `ValueError` raised when matching a non-wild
candidate against a wild top card with no chosen active color. -/
def Card.matches (c : Card) (otherCard : Card) (currentColorChosenForWild : Option Color) :
    Except String Bool :=
  if c.isWild then
    .ok true
  else if otherCard.isWild then
    match currentColorChosenForWild with
    | none => .error "Cannot match against a Wild card without a chosen active color."
    | some col => .ok (c.color == col)
  else
    .ok (c.color == otherCard.color || c.rank == otherCard.rank)

/-- `Card.matches` succeeded with `True`. -/
def Card.matchesTrue (c : Card) (otherCard : Card) (cur : Option Color) : Bool :=
  match Card.matches c otherCard cur with
  | .ok b => b
  | .error _ => false

/-- `deck.py` `Deck`: draw pile (`cards`) and `discard_pile`, top = end. -/
structure Deck where
  cards : List Card
  discardPile : List Card
deriving DecidableEq, Repr

/-- `Deck.draw_card`: pop from the end of the draw pile (`list.pop()`). -/
def Deck.drawCard (d : Deck) : Option (Card × Deck) :=
  match d.cards.getLast? with
  | none => none
  | some c => some (c, { d with cards := d.cards.dropLast })

/-- `Deck.add_to_discard`. -/
def Deck.addToDiscard (d : Deck) (c : Card) : Deck :=
  { d with discardPile := d.discardPile ++ [c] }

/-- `Deck.get_top_discard_card`. -/
def Deck.getTopDiscardCard (d : Deck) : Option Card :=
  d.discardPile.getLast?

/-- `Deck.is_empty` (draw pile only). -/
def Deck.isEmpty (d : Deck) : Bool :=
  d.cards.isEmpty

/-- `Deck.needs_reshuffle`. -/
def Deck.needsReshuffle (d : Deck) : Bool :=
  d.isEmpty && !d.discardPile.isEmpty

/-- `Deck.reshuffle_discard_pile_into_deck(keep_top_card)`.  `shuffle` is the
oracle standing for `random.shuffle`.  Returns the Python `bool` result
together with the new deck. -/
def Deck.reshuffleDiscardPileIntoDeck (shuffle : List Card → List Card) (d : Deck)
    (keepTopCard : Bool := true) : Bool × Deck :=
  if d.discardPile.isEmpty then
    (false, d)
  else
    let topCardToKeep : Option Card :=
      if keepTopCard then d.discardPile.getLast? else none
    let rest : List Card :=
      if keepTopCard then d.discardPile.dropLast else d.discardPile
    let newCards := shuffle (d.cards ++ rest)
    let newDiscard : List Card :=
      match topCardToKeep with
      | some t => [t]
      | none => []
    (true, { cards := newCards, discardPile := newDiscard })

/-- `Deck.create_standard_deck`: the 108-card composition. -/
def createStandardDeck : List Card :=
  let colors := [Color.red, Color.yellow, Color.green, Color.blue]
  let numberRanks := [Rank.one, Rank.two, Rank.three, Rank.four, Rank.five,
    Rank.six, Rank.seven, Rank.eight, Rank.nine]
  let actionRanks := [Rank.drawTwo, Rank.skip, Rank.reverse]
  (colors.flatMap (fun color =>
    ⟨color, Rank.zero⟩ ::
      (numberRanks.flatMap (fun r => [⟨color, r⟩, ⟨color, r⟩]) ++
        actionRanks.flatMap (fun r => [⟨color, r⟩, ⟨color, r⟩]))))
    ++ (List.range 4).flatMap (fun _ =>
      [⟨Color.wild, Rank.wild⟩, ⟨Color.wild, Rank.wildDrawFour⟩])

/-- `player.py` `Player`.  The name is kept for fidelity; players are
addressed by their index in the game's player list (Python compares the
`Player` objects by identity, which coincides with list position). -/
structure Player where
  name : String
  hand : List Card
  coins : Nat
  shuffleCounters : Nat
  lunarMana : Nat
  solarMana : Nat
  getOutOfJailYellow4 : Option Card
deriving DecidableEq, Repr

/-- A fresh player (`Player.__init__`). -/
def Player.fresh (name : String) : Player :=
  ⟨name, [], 0, 0, 0, 0, none⟩

/-- `Player.play_card(card_index)`: remove and return the card at an index;
`none` when out of range.  The external index is an `Int`, as in Python. -/
def Player.playCard (p : Player) (cardIndex : Int) : Option (Card × Player) :=
  if 0 ≤ cardIndex ∧ cardIndex < (p.hand.length : Int) then
    let i := cardIndex.toNat
    match p.hand[i]? with
    | some c => some (c, { p with hand := p.hand.eraseIdx i })
    | none => none
  else
    none

/-- `Player.add_card_to_hand`. -/
def Player.addCardToHand (p : Player) (c : Card) : Player :=
  { p with hand := p.hand ++ [c] }

/-- `Player.remove_card_from_hand`: removes the first card equal
(by `Card.__eq__`, i.e. `(color, rank)`) to the given one, if present. -/
def Player.removeCardFromHand (p : Player) (c : Card) : Player :=
  { p with hand := p.hand.erase c }

/-- `Player.hand_size`. -/
def Player.handSize (p : Player) : Nat := p.hand.length

/-- `Player.is_hand_empty`. -/
def Player.isHandEmpty (p : Player) : Bool := p.hand.isEmpty

/-- `Player.has_playable_card(top_discard_card, current_wild_color)`:
any card in hand for which `matches` returns `True` (exceptions from
`matches` cannot occur at its call sites, see `game.py` analysis; a raising
comparison counts as not-a-match here). -/
def Player.hasPlayableCard (p : Player) (top : Card) (cur : Option Color) : Bool :=
  p.hand.any (fun c => c.matchesTrue top cur)

/-- `UnoGame._award_color_counters(player, card)`. -/
def awardColorCounters (p : Player) (card : Card) : Player :=
  if card.isWild then p
  else if card.color == Color.red then { p with solarMana := p.solarMana + 1 }
  else if card.color == Color.yellow then { p with coins := p.coins + 1 }
  else if card.color == Color.green then { p with shuffleCounters := p.shuffleCounters + 1 }
  else if card.color == Color.blue then { p with lunarMana := p.lunarMana + 1 }
  else p

/-- `actions.py` `ActionType`. -/
inductive ActionType where
  | nextPlayer
  | reverseDirection
  | skipPlayer
  | drawCards
  | chooseColor
  | swapCardRight
  | swapCardAny
  | discardFromPlayerHand
  | playerDrawsFourUnlessLast
  | playAnyAndDrawOne
  | takeRandomFromPrevious
  | placeTopDrawPileCard
  | discardAllTwos
  | gameWin
  | continueTurn
  | nop
deriving DecidableEq, Repr

/-- `actions.py` `GameActionValue = Union[None, int, Color, Dict[str, int]]`.
The dictionary case is only ever `{"count": _, "from_player_idx": _}`
(the Blue 3 effect). -/
inductive GameActionValue where
  | int (n : Int)
  | color (c : Color)
  | dict (count : Nat) (fromPlayerIdx : Nat)
deriving DecidableEq, Repr

/-- `actions.py` `GameAction` (the display-only `message_override` dropped). -/
structure GameAction where
  type : ActionType
  value : Option GameActionValue := none
  targetPlayerOffset : Option Int := none
deriving DecidableEq, Repr

/-- `UnoGame.action_data`, a string-keyed dictionary in the source; its
finitely many keys become optional fields.  An absent key is `none`
(`is_for_rank_6_wild` is only ever absent or `True`, hence a `Bool`). -/
structure ActionData where
  originalPlayerIdx : Option Nat := none
  cardPlayed : Option Card := none
  originalCard : Option Card := none
  remainingActions : Option (List GameAction) := none
  playerIdx : Option Nat := none
  chooserIdx : Option Nat := none
  victimIdx : Option Nat := none
  count : Option Nat := none
  targetPlayerIdx : Option Nat := none
  isForRank6Wild : Bool := false
  rank6CardIdxPendingColor : Option Int := none
deriving DecidableEq, Repr

/-- The empty dictionary (`action_data.clear()` / `{}`). -/
def ActionData.empty : ActionData := {}

/-- `UnoGame` state.  `winner` is the winning player's index (the source
stores the `Player` object, which lives at that index of `players`). -/
structure GameState where
  deck : Deck
  players : List Player
  currentPlayerIndex : Nat
  gameOver : Bool
  winner : Option Nat
  playDirection : Int
  currentWildColor : Option Color
  pendingAction : Option GameAction
  actionData : ActionData
deriving DecidableEq, Repr

/-- Oracle for the shared `random` source: `shuffle` stands for
`random.shuffle`, `randNat lo hi` for `random.randint(lo, hi)`, and
`randColor` for `random.choice([c for c in Color if c != Color.WILD])`. -/
structure Rand where
  shuffle : List Card → List Card
  randNat : Nat → Nat → Nat
  randColor : Color

/-- The deterministic oracle used for concrete evaluations: `shuffle` is the
identity permutation, `randNat` picks the lower bound, `randColor` red. -/
def detRand : Rand :=
  ⟨id, fun lo _ => lo, Color.red⟩

/-- Number of players. -/
def GameState.numPlayers (g : GameState) : Nat := g.players.length

/-- Safe player lookup (used where the source accesses a `Player` that is
guaranteed to exist; raw possibly-raising subscripts are modelled separately
at their use sites). -/
def GameState.getP (g : GameState) (i : Nat) : Player :=
  g.players.getD i (Player.fresh "?")

/-- Replace player `i` (Python mutates the object in place). -/
def GameState.setP (g : GameState) (i : Nat) (p : Player) : GameState :=
  { g with players := g.players.set i p }

/-- `UnoGame._get_player_at_offset` computes
`(base + offset + num_players) % num_players`; we return the *index* (the
source returns `self.players[target_idx]`, and every consumer immediately
works with that object, i.e. with this index). -/
def GameState.playerIdxAtOffset (g : GameState) (basePlayerIdx : Nat) (offset : Int) : Nat :=
  (((basePlayerIdx : Int) + offset + (g.numPlayers : Int)) % (g.numPlayers : Int)).toNat

/-- `UnoGame._advance_turn_marker(steps=1)`. -/
def GameState.advanceTurnMarker (g : GameState) : GameState :=
  { g with currentPlayerIndex :=
      (((g.currentPlayerIndex : Int) + g.playDirection * 1 + (g.numPlayers : Int)) %
        (g.numPlayers : Int)).toNat }

/-- `UnoGame._handle_draw_pile_empty(drawing_player)`: returns the
`can draw` flag and the updated state (a shuffle counter may be spent and the
discard pile reshuffled into the draw pile). -/
def handleDrawPileEmpty (rand : Rand) (g : GameState) (pIdx : Nat) : Bool × GameState :=
  if g.deck.needsReshuffle then
    let p := g.getP pIdx
    if p.shuffleCounters > 0 then
      let g := g.setP pIdx { p with shuffleCounters := p.shuffleCounters - 1 }
      let (_, deck') := g.deck.reshuffleDiscardPileIntoDeck rand.shuffle true
      let g := { g with deck := deck' }
      if g.deck.isEmpty then (false, g) else (true, g)
    else
      (false, g)
  else if g.deck.isEmpty then
    (false, g)
  else
    (true, g)

/-- `UnoGame.player_draws_card(player, count)`: `count` sequential single
draws, each gated by `_handle_draw_pile_empty`; stops early when a draw is
impossible.  Returns the drawn cards (in draw order) and the new state. -/
def playerDrawsCard (rand : Rand) (g : GameState) (pIdx : Nat) :
    Nat → List Card × GameState
  | 0 => ([], g)
  | n + 1 =>
    let (canDraw, g1) := handleDrawPileEmpty rand g pIdx
    if !canDraw then
      ([], g1)
    else
      match g1.deck.drawCard with
      | some (c, deck') =>
        let g2 := { g1 with deck := deck' }
        let g3 := g2.setP pIdx ((g2.getP pIdx).addCardToHand c)
        let (rest, g4) := playerDrawsCard rand g3 pIdx n
        (c :: rest, g4)
      | none => ([], g1)

/-- `UnoGame._get_card_actions(card, playing_player, chosen_color_for_wild)`.
`playerIdx` is `self.players.index(playing_player)`. -/
def getCardActions (g : GameState) (card : Card) (playerIdx : Nat)
    (chosenColorForWild : Option Color) : List GameAction :=
  let custom : List GameAction :=
    if card.rank == Rank.seven then
      [{ type := .swapCardRight }]
    else if card.rank == Rank.zero then
      [{ type := .swapCardAny }]
    else if card.color == Color.blue && card.rank == Rank.three then
      [{ type := .discardFromPlayerHand,
         targetPlayerOffset := some (-g.playDirection),
         value := some (.dict 2 playerIdx) }]
    else if card.color == Color.red && card.rank == Rank.eight then
      [{ type := .playerDrawsFourUnlessLast, targetPlayerOffset := some 0 }]
    else if card.rank == Rank.six then
      [{ type := .playAnyAndDrawOne, targetPlayerOffset := some 0 }]
    else if card.color == Color.green && card.rank == Rank.five then
      [{ type := .takeRandomFromPrevious, targetPlayerOffset := some (-g.playDirection) }]
    else if card.rank == Rank.nine then
      [{ type := .placeTopDrawPileCard }]
    else
      []
  let isCustomEffectPrimary :=
    custom.any (fun a => a.type != ActionType.nop && a.type != ActionType.chooseColor)
  let actions :=
    if !isCustomEffectPrimary then
      custom ++
        (if card.isWild then
          [{ type := .chooseColor, value := chosenColorForWild.map GameActionValue.color }] ++
            (if card.rank == Rank.wildDrawFour then
              [{ type := .drawCards, value := some (.int 4), targetPlayerOffset := some 1 },
               { type := .skipPlayer, targetPlayerOffset := some 1 }]
            else [])
        else if card.rank == Rank.drawTwo then
          [{ type := .drawCards, value := some (.int 2), targetPlayerOffset := some 1 },
           { type := .skipPlayer, targetPlayerOffset := some 1 }]
        else if card.rank == Rank.skip then
          [{ type := .skipPlayer, targetPlayerOffset := some 1 }]
        else if card.rank == Rank.reverse then
          [{ type := .reverseDirection }] ++
            (if g.numPlayers == 2 then
              [{ type := .skipPlayer, targetPlayerOffset := some 0 }]
            else [])
        else [])
    else
      custom
  if actions.isEmpty then [{ type := .nop }] else actions

/-- The `action_input` dictionary of `play_turn`: its finitely many keys. -/
structure ActionInput where
  cardToGiveIdx : Option Int := none
  cardToTakeIdx : Option Int := none
  targetPlayerIdx : Option Int := none
  chosenIndicesFromVictim : Option (List Int) := none
  chosenColor : Option Color := none
  chosenColorForRank6Wild : Option Color := none
deriving DecidableEq, Repr

/-- Result of `play_turn`: the `(success, message, next_action_prompt)` tuple
with the display message dropped, or a raised exception. -/
inductive PTOutcome where
  | result (success : Bool) (next : Option ActionType)
  | exn (msg : String)
deriving DecidableEq, Repr

/-- Result of `player_cannot_play_action`: `(success, message)` with the
message dropped, or a raised exception. -/
inductive CPOutcome where
  | result (success : Bool)
  | exn (msg : String)
deriving DecidableEq, Repr

/-- `action_input.get(key) if action_input else None`. -/
def inputGet {α : Type} (actionInput : Option ActionInput) (f : ActionInput → Option α) :
    Option α :=
  match actionInput with
  | none => none
  | some ai => f ai

/-- Clear the pending action and its data, set the turn marker to `idx` and
advance once: the common tail of the swap / discard resolvers. -/
def GameState.finishPendingFrom (g : GameState) (idx : Nat) : GameState :=
  ({ g with pendingAction := none, actionData := ActionData.empty,
            currentPlayerIndex := idx } : GameState).advanceTurnMarker

/-- The two-sided card exchange of the Rank 7 / Rank 0 swap resolvers
(`play_card` both sides, then re-add, with the source's rollback branches for
a failed pop).  Performed sequentially against the evolving state, exactly as
the in-place Python mutations are. -/
def swapExchange (g : GameState) (actorIdx otherIdx : Nat) (giveIdx takeIdx : Int) :
    GameState :=
  match (g.getP actorIdx).playCard giveIdx with
  | some (cardGiven, actor') =>
    let g1 := g.setP actorIdx actor'
    match (g1.getP otherIdx).playCard takeIdx with
    | some (cardTaken, other') =>
      let g2 := g1.setP otherIdx other'
      let g3 := g2.setP actorIdx ((g2.getP actorIdx).addCardToHand cardTaken)
      g3.setP otherIdx ((g3.getP otherIdx).addCardToHand cardGiven)
    | none =>
      -- rollback: put the given card back
      g1.setP actorIdx ((g1.getP actorIdx).addCardToHand cardGiven)
  | none =>
    match (g.getP otherIdx).playCard takeIdx with
    | some (cardTaken, other') =>
      let g1 := g.setP otherIdx other'
      g1.setP otherIdx ((g1.getP otherIdx).addCardToHand cardTaken)
    | none => g

/-- `play_turn`, pending `SWAP_CARD_RIGHT` (Rank 7) resolution. -/
def resolveSwapCardRight (g : GameState) (pIdx origIdx : Nat)
    (actionInput : Option ActionInput) : PTOutcome × GameState :=
  if pIdx ≠ origIdx then
    (.result false (some .swapCardRight), g)
  else
    let rightIdx := g.playerIdxAtOffset origIdx g.playDirection
    let give? := inputGet actionInput (·.cardToGiveIdx)
    let take? := inputGet actionInput (·.cardToTakeIdx)
    match give?, take? with
    | none, _ => (.result false (some .swapCardRight), g)
    | _, none => (.result false (some .swapCardRight), g)
    | some give, some take =>
      if ¬(0 ≤ give ∧ give < ((g.getP pIdx).handSize : Int)) then
        (.result false (some .swapCardRight), g)
      else if (g.getP rightIdx).isHandEmpty then
        -- swap cannot complete; pending cleared, turn advances from initiator
        (.result true none, g.finishPendingFrom origIdx)
      else if ¬(0 ≤ take ∧ take < ((g.getP rightIdx).handSize : Int)) then
        (.result false (some .swapCardRight), g)
      else
        (.result true none, (swapExchange g pIdx rightIdx give take).finishPendingFrom origIdx)

/-- `play_turn`, pending `SWAP_CARD_ANY` (Rank 0) resolution (two stages). -/
def resolveSwapCardAny (g : GameState) (pIdx origIdx : Nat)
    (actionInput : Option ActionInput) : PTOutcome × GameState :=
  if pIdx ≠ origIdx then
    (.result false (some .swapCardAny), g)
  else
    match g.actionData.targetPlayerIdx with
    | none =>
      -- Stage 1: choose the target player
      match inputGet actionInput (·.targetPlayerIdx) with
      | none => (.result false (some .swapCardAny), g)
      | some t =>
        if ¬(0 ≤ t ∧ t < (g.numPlayers : Int)) ∨ t = (origIdx : Int) then
          (.result false (some .swapCardAny), g)
        else
          (.result true (some .swapCardAny),
            { g with actionData := { g.actionData with targetPlayerIdx := some t.toNat } })
    | some targetIdx =>
      -- Stage 2: choose the cards to swap
      if targetIdx < g.numPlayers then
        let give? := inputGet actionInput (·.cardToGiveIdx)
        let take? := inputGet actionInput (·.cardToTakeIdx)
        match give?, take? with
        | none, _ => (.result false (some .swapCardAny), g)
        | _, none => (.result false (some .swapCardAny), g)
        | some give, some take =>
          if ¬(0 ≤ give ∧ give < ((g.getP pIdx).handSize : Int)) then
            (.result false (some .swapCardAny), g)
          else if (g.getP targetIdx).isHandEmpty then
            (.result true none, g.finishPendingFrom origIdx)
          else if ¬(0 ≤ take ∧ take < ((g.getP targetIdx).handSize : Int)) then
            (.result false (some .swapCardAny), g)
          else
            (.result true none,
              (swapExchange g pIdx targetIdx give take).finishPendingFrom origIdx)
      else (.exn "IndexError: target player", g)

/-- The index-validation/pop loop of the Blue 3 resolver: pops the chosen
indices (already sorted descending) from the victim's hand one by one,
re-checking bounds against the *current* hand size before each pop. -/
def discardPopLoop (g : GameState) (victimIdx : Nat) (removed : List Card) :
    List Int → Bool × List Card × GameState
  | [] => (true, removed, g)
  | idx :: rest =>
    let victim := g.getP victimIdx
    if 0 ≤ idx ∧ idx < (victim.handSize : Int) then
      match victim.playCard idx with
      | some (c, victim') =>
        discardPopLoop (g.setP victimIdx victim') victimIdx (removed ++ [c]) rest
      | none => (false, removed, g)
    else
      (false, removed, g)

/-- `play_turn`, pending `DISCARD_FROM_PLAYER_HAND` (Blue 3) resolution.
On invalid indices the source rolls the pops back by *appending* the removed
cards to the victim's hand — which does not restore the original order. -/
def resolveDiscardFromPlayerHand (g : GameState) (pIdx : Nat)
    (actionInput : Option ActionInput) : PTOutcome × GameState :=
  match g.actionData.chooserIdx, g.actionData.victimIdx with
  | none, _ => (.result false none, g)
  | _, none => (.result false none, g)
  | some chooserIdx, some victimIdx =>
    if chooserIdx < g.numPlayers ∧ victimIdx < g.numPlayers then
      if pIdx ≠ chooserIdx then
        (.result false (some .discardFromPlayerHand), g)
      else
        let numToDiscard := g.actionData.count.getD 2
        let chosen := (inputGet actionInput (·.chosenIndicesFromVictim)).getD []
        let actualCount := min numToDiscard (g.getP victimIdx).handSize
        if chosen.eraseDups.length ≠ actualCount then
          (.result false (some .discardFromPlayerHand), g)
        else
          let sortedIdxs := chosen.insertionSort (fun a b => b ≤ a)
          let (valid, removed, g1) := discardPopLoop g victimIdx [] sortedIdxs
          if ¬valid then
            -- rollback: append the removed cards back to the victim's hand
            let g2 := removed.foldl
              (fun acc c => acc.setP victimIdx ((acc.getP victimIdx).addCardToHand c)) g1
            (.result false (some .discardFromPlayerHand), g2)
          else
            let g2 := removed.foldl (fun acc c => { acc with deck := acc.deck.addToDiscard c }) g1
            (.result true none, g2.finishPendingFrom victimIdx)
    else (.exn "IndexError: chooser/victim", g)

/-- The sub-effect loop shared by the Rank 6 free play and the
drawn-and-auto-played card: processes `GAME_WIN` (ends the game, winner =
`baseIdx`, stops), `DRAW_CARDS` (offset from `baseIdx`), `SKIP_PLAYER`
(flag), `REVERSE_DIRECTION`.  Returns the state and the skip flag. -/
def subEffectsLoop (rand : Rand) (g : GameState) (baseIdx : Nat) (skipFlag : Bool) :
    List GameAction → (GameState × Bool) ⊕ (String × GameState)
  | [] => .inl (g, skipFlag)
  | a :: rest =>
    if a.type == ActionType.gameWin then
      .inl ({ g with gameOver := true, winner := some baseIdx }, skipFlag)
    else if a.type == ActionType.drawCards then
      let off := a.targetPlayerOffset.getD 1
      let victimIdx := g.playerIdxAtOffset baseIdx (g.playDirection * off)
      match a.value with
      | some (.int v) =>
        let (_, g') := playerDrawsCard rand g victimIdx v.toNat
        subEffectsLoop rand g' baseIdx skipFlag rest
      | _ => .inr ("TypeError: draw count", g)
    else if a.type == ActionType.skipPlayer then
      subEffectsLoop rand g baseIdx true rest
    else if a.type == ActionType.reverseDirection then
      subEffectsLoop rand { g with playDirection := -g.playDirection } baseIdx skipFlag rest
    else
      subEffectsLoop rand g baseIdx skipFlag rest

/-- The stashed-trailing-effects loop of the standard `CHOOSE_COLOR`
resolution: only `DRAW_CARDS` (offset from the color-chooser) and
`SKIP_PLAYER` have any effect there. -/
def remainingActionsLoop (rand : Rand) (g : GameState) (baseIdx : Nat) (skipFlag : Bool) :
    List GameAction → (GameState × Bool) ⊕ (String × GameState)
  | [] => .inl (g, skipFlag)
  | a :: rest =>
    if a.type == ActionType.drawCards then
      let off := a.targetPlayerOffset.getD 1
      let victimIdx := g.playerIdxAtOffset baseIdx (g.playDirection * off)
      match a.value with
      | some (.int v) =>
        let (_, g') := playerDrawsCard rand g victimIdx v.toNat
        remainingActionsLoop rand g' baseIdx skipFlag rest
      | _ => .inr ("TypeError: draw count", g)
    else if a.type == ActionType.skipPlayer then
      remainingActionsLoop rand g baseIdx true rest
    else
      remainingActionsLoop rand g baseIdx skipFlag rest

/-- The tail of the Rank 6 resolution, once the freely chosen card has been
removed from the initiator's hand, placed on the discard pile, and the
active wild color updated: counters are awarded, the free card's own effect
list is run synchronously (a win stops it), the initiator draws one, and the
turn advances from the initiator, honoring a skip. -/
def resolveRank6Play (rand : Rand) (g3 : GameState) (origIdx : Nat) (played : Card)
    (activeColor : Option Color) : PTOutcome × GameState :=
  let g4 := g3.setP origIdx (awardColorCounters (g3.getP origIdx) played)
  let actions := getCardActions g4 played origIdx activeColor
  let actions :=
    if (g4.getP origIdx).isHandEmpty ∧
        ¬actions.any (fun a => a.type == ActionType.gameWin) then
      [{ type := .gameWin }]
    else actions
  match subEffectsLoop rand g4 origIdx false actions with
  | .inr (m, g5) => (.exn m, g5)
  | .inl (g5, skipFlag) =>
    if g5.gameOver then
      (.result true none, g5)
    else
      let (_, g6) := playerDrawsCard rand g5 origIdx 1
      let g7 := ({ g6 with
        pendingAction := none,
        actionData := ActionData.empty,
        currentPlayerIndex := origIdx } : GameState).advanceTurnMarker
      let g8 := if skipFlag then g7.advanceTurnMarker else g7
      (.result true none, g8)

/-- `play_turn`, pending `PLAY_ANY_AND_DRAW_ONE` (Rank 6) resolution. -/
def resolvePlayAnyAndDrawOne (rand : Rand) (g : GameState) (pIdx origIdx : Nat)
    (cardIndex : Option Int) (actionInput : Option ActionInput) : PTOutcome × GameState :=
  if pIdx ≠ origIdx then
    (.result false (some .playAnyAndDrawOne), g)
  else
    let colorForRank6Wild := inputGet actionInput (·.chosenColorForRank6Wild)
    match cardIndex with
    | none => (.result false (some .playAnyAndDrawOne), g)
    | some ci =>
      if ¬(0 ≤ ci ∧ ci < ((g.getP origIdx).handSize : Int)) then
        (.result false (some .playAnyAndDrawOne), g)
      else
        let cardToPlayFreely := ((g.getP origIdx).hand.getD ci.toNat ⟨Color.red, Rank.zero⟩)
        if cardToPlayFreely.isWild ∧ colorForRank6Wild = none then
          -- ask for the color first: re-suspend as CHOOSE_COLOR
          (.result true (some .chooseColor),
            { g with
                pendingAction := some { type := .chooseColor },
                actionData := { g.actionData with
                  isForRank6Wild := true,
                  rank6CardIdxPendingColor := some ci } })
        else
          match (g.getP origIdx).playCard ci with
          | none => (.result false none, g)
          | some (played, p6') =>
            let g1 := (g.setP origIdx p6')
            let g2 := { g1 with deck := g1.deck.addToDiscard played }
            let step :
                Option (Option Color × GameState) :=
              if played.isWild then
                match colorForRank6Wild with
                | none => none   -- "Logic Error", unreachable (suspended above)
                | some col => some (some col, { g2 with currentWildColor := some col })
              else
                some (some played.color, { g2 with currentWildColor := none })
            match step with
            | none => (.result false none, g2)
            | some (activeColor, g3) => resolveRank6Play rand g3 origIdx played activeColor

/-- `play_turn`, pending `CHOOSE_COLOR` resolution.  The Rank 6 sub-case
re-enters `play_turn` recursively; since the pending action has just been set
back to `PLAY_ANY_AND_DRAW_ONE`, that re-entry reduces to the corresponding
resolver behind the `game_over` guard. -/
def resolveChooseColor (rand : Rand) (g : GameState) (pIdx : Nat)
    (actionInput : Option ActionInput) : PTOutcome × GameState :=
  match inputGet actionInput (·.chosenColor) with
  | none => (.result false (some .chooseColor), g)
  | some chosenColor =>
    if chosenColor = Color.wild then
      (.result false (some .chooseColor), g)
    else if g.actionData.isForRank6Wild then
      match g.actionData.rank6CardIdxPendingColor with
      | none => (.exn "KeyError: rank_6_card_idx_pending_color", g)
      | some rank6CardIdx =>
        let adata' := { g.actionData with
          rank6CardIdxPendingColor := none, isForRank6Wild := false }
        match adata'.originalPlayerIdx with
        | none => (.exn "TypeError: players[None]", g)
        | some uidx =>
          if uidx < g.numPlayers then
            let g' := { g with
              actionData := adata',
              pendingAction := some { type := .playAnyAndDrawOne } }
            -- recursive re-entry into play_turn
            if g'.gameOver then
              (.result false none, g')
            else
              resolvePlayAnyAndDrawOne rand g' uidx uidx (some rank6CardIdx)
                (some { chosenColorForRank6Wild := some chosenColor })
          else (.exn "IndexError: rank 6 player", g)
    else
      let playerWhoChoseIdx := g.actionData.playerIdx.getD pIdx
      if playerWhoChoseIdx < g.numPlayers then
        if pIdx ≠ playerWhoChoseIdx then
          (.result false (some .chooseColor), g)
        else
          match g.actionData.cardPlayed with
          | none => (.result false none, g)
          | some cardThatWasWild =>
            if ¬cardThatWasWild.isWild then
              (.result false none, g)
            else
              let g1 := { g with currentWildColor := some chosenColor }
              let remaining := g1.actionData.remainingActions.getD []
              let g2 := { g1 with pendingAction := none, actionData := ActionData.empty }
              match remainingActionsLoop rand g2 playerWhoChoseIdx false remaining with
              | .inr (m, g3) => (.exn m, g3)
              | .inl (g3, skipFlag) =>
                let g4 :=
                  ({ g3 with currentPlayerIndex := playerWhoChoseIdx } :
                    GameState).advanceTurnMarker
                let g5 := if skipFlag then g4.advanceTurnMarker else g4
                (.result true none, g5)
      else (.exn "IndexError: color chooser", g)

/-- The Rank 2 duplicate-play rule of `play_turn` (the block guarded by the
"played card equals the card underneath" test): every Rank 2 card still in
the player's hand is removed (first-equal removal, as
`Player.remove_card_from_hand` does) and appended to the discard pile; a
hand emptied this way ends the game.  Returns the new state and whether the
call returns early (win). -/
def duplicateStep (g : GameState) (pIdx : Nat) (played : Card)
    (underneath : Option Card) : GameState × Bool :=
  match underneath with
  | none => (g, false)
  | some u =>
    if played.rank == u.rank && played.color == u.color && !played.isWild then
      let p := g.getP pIdx
      let twosInHand := p.hand.filter (fun c => c.rank == Rank.two)
      if twosInHand.isEmpty then (g, false)
      else
        let (newHand, newDiscard) :=
          twosInHand.foldl (fun (hd : List Card × List Card) c =>
            (hd.1.erase c, hd.2 ++ [c])) (p.hand, g.deck.discardPile)
        let g1 := g.setP pIdx { p with hand := newHand }
        let g2 := { g1 with deck := { g1.deck with discardPile := newDiscard } }
        if (g2.getP pIdx).isHandEmpty then
          ({ g2 with gameOver := true, winner := some pIdx }, true)
        else (g2, false)
    else (g, false)

/-- How the Part 3 `while` loop of `play_turn` exited: an in-loop `return`
(`ret`), an exception, or falling through / `break`ing out (`done`, carrying
the skip flag, the advance-normally flag and `next_action_needed`). -/
inductive LoopExit where
  | ret (success : Bool) (next : Option ActionType)
  | exn (msg : String)
  | done (skipFlag : Bool) (advanceNormally : Bool) (nextNeeded : Option ActionType)
deriving DecidableEq, Repr

/-- Part 3 of `play_turn`: the action-processing `while` loop.  The source
walks the list by index; the only in-place modification (Rank 9) replaces it
with `sub_actions + remainder` and resets the index, which is exactly
continuing on `sub ++ rest`.  `fuel` is a termination bound only; the
wrapper passes more fuel than any execution can consume (each iteration
either consumes a list entry or, for Rank 9, a draw-pile card, and reshuffles
are limited by the players' shuffle counters). -/
def processActions (rand : Rand) :
    Nat → GameState → Nat → Card → Bool → Bool → List GameAction → LoopExit × GameState
  | 0, g, _, _, skipFlag, adv, _ => (.done skipFlag adv none, g)
  | _ + 1, g, _, _, skipFlag, adv, [] => (.done skipFlag adv none, g)
  | fuel + 1, g, pIdx, played, skipFlag, adv, a :: rest =>
    if a.type == ActionType.gameWin then
      (.ret true none, { g with gameOver := true, winner := some pIdx })
    else if a.type == ActionType.chooseColor then
      match a.value with
      | some (.color c) =>
        -- color already supplied with the wild play
        processActions rand fuel { g with currentWildColor := some c } pIdx played
          skipFlag adv rest
      | _ =>
        -- color needed: suspend, stashing the trailing actions
        (.ret true (some .chooseColor),
          { g with
              pendingAction := some a,
              actionData := { cardPlayed := some played,
                              remainingActions := some rest,
                              playerIdx := some pIdx,
                              originalPlayerIdx := some pIdx } })
    else if a.type == ActionType.drawCards then
      let off := a.targetPlayerOffset.getD 1
      let victimIdx := g.playerIdxAtOffset pIdx (g.playDirection * off)
      match a.value with
      | some (.int v) =>
        let (_, g') := playerDrawsCard rand g victimIdx v.toNat
        processActions rand fuel g' pIdx played skipFlag adv rest
      | _ => (.exn "TypeError: draw count", g)
    else if a.type == ActionType.skipPlayer then
      processActions rand fuel g pIdx played true adv rest
    else if a.type == ActionType.reverseDirection then
      processActions rand fuel { g with playDirection := -g.playDirection } pIdx played
        skipFlag adv rest
    else if a.type == ActionType.swapCardRight || a.type == ActionType.swapCardAny ||
        a.type == ActionType.discardFromPlayerHand ||
        a.type == ActionType.playAnyAndDrawOne then
      -- initiation of a multi-step action: set pending, stash context, break
      let adata : ActionData :=
        { originalCard := some played,
          remainingActions := some rest,
          originalPlayerIdx := some pIdx }
      let adata :=
        if a.type == ActionType.discardFromPlayerHand then
          { adata with
              chooserIdx := some (g.playerIdxAtOffset pIdx (-g.playDirection)),
              victimIdx := some pIdx,
              count := some (match a.value with | some (.dict c _) => c | _ => 2) }
        else adata
      (.done skipFlag false (some a.type),
        { g with pendingAction := some a, actionData := adata })
    else if a.type == ActionType.playerDrawsFourUnlessLast then
      if (g.getP pIdx).handSize > 0 then
        let (_, g') := playerDrawsCard rand g pIdx 4
        processActions rand fuel g' pIdx played skipFlag adv rest
      else
        processActions rand fuel g pIdx played skipFlag adv rest
    else if a.type == ActionType.takeRandomFromPrevious then
      let prevIdx := g.playerIdxAtOffset pIdx (-g.playDirection)
      let prev := g.getP prevIdx
      if ¬prev.isHandEmpty then
        let k := rand.randNat 0 (prev.handSize - 1)
        match prev.playCard (k : Int) with
        | some (c, prev') =>
          let g1 := g.setP prevIdx prev'
          let g2 := g1.setP pIdx ((g1.getP pIdx).addCardToHand c)
          processActions rand fuel g2 pIdx played skipFlag adv rest
        | none =>
          processActions rand fuel g pIdx played skipFlag adv rest
      else
        processActions rand fuel g pIdx played skipFlag adv rest
    else if a.type == ActionType.placeTopDrawPileCard then
      let (canDraw, g1) := handleDrawPileEmpty rand g pIdx
      if ¬canDraw then
        processActions rand fuel g1 pIdx played skipFlag adv rest
      else
        match g1.deck.drawCard with
        | none => processActions rand fuel g1 pIdx played skipFlag adv rest
        | some (c, deck') =>
          let g2 := { g1 with deck := deck'.addToDiscard c }
          let g3 := if ¬c.isWild then { g2 with currentWildColor := none } else g2
          let sub := getCardActions g3 c pIdx none
          let canPlayAgain :=
            if ¬(sub.any fun s =>
                s.type == ActionType.drawCards || s.type == ActionType.skipPlayer ||
                s.type == ActionType.reverseDirection ||
                (s.type == ActionType.chooseColor && s.value == none)) then
              (g3.getP pIdx).hasPlayableCard c
                (if c.isWild then g3.currentWildColor else none)
            else false
          let adv' := if canPlayAgain then false else adv
          processActions rand fuel g3 pIdx played skipFlag adv' (sub ++ rest)
    else
      -- NOP and the action types with no branch in the loop
      processActions rand fuel g pIdx played skipFlag adv rest

/-- The code after the Part 3 loop of `play_turn` (lines "After processing
all actions ..."): early returns for game over / pending input, otherwise
the turn advances (twice on a skip flag). -/
def finishTurn (g : GameState) (exit : LoopExit) : PTOutcome × GameState :=
  match exit with
  | .ret s nxt => (.result s nxt, g)
  | .exn m => (.exn m, g)
  | .done skipFlag adv nextNeeded =>
    if g.gameOver then (.result true none, g)
    else if nextNeeded.isSome then (.result true nextNeeded, g)
    else if adv then
      let g1 := g.advanceTurnMarker
      (.result true none, if skipFlag then g1.advanceTurnMarker else g1)
    else (.result true none, g)

/-- Fuel bound handed to `processActions`; generously larger than any
possible number of loop iterations (see `processActions`). -/
def playTurnFuel (g : GameState) : Nat :=
  4 * (g.deck.cards.length + g.deck.discardPile.length +
    (g.players.map (fun p => p.shuffleCounters)).sum) + 64

/-- The tail of a standard play, after the played card has moved to the
discard pile and the duplicate rule has been applied (without ending the
game): clear the active wild color for a non-wild card, award the resource
counter, build the effect list (replaced by a win when the hand emptied),
process it, and finish the turn. -/
def normalPlayAfterDup (rand : Rand) (g3 : GameState) (pIdx : Nat) (playedCard : Card)
    (chosenColorForWild : Option Color) : PTOutcome × GameState :=
  let g4 :=
    if ¬playedCard.isWild then { g3 with currentWildColor := none } else g3
  let g5 := g4.setP pIdx (awardColorCounters (g4.getP pIdx) playedCard)
  let actions := getCardActions g5 playedCard pIdx
    (if playedCard.isWild then chosenColorForWild else none)
  let actions :=
    if (g5.getP pIdx).isHandEmpty ∧
        ¬actions.any (fun a => a.type == ActionType.gameWin) then
      [{ type := .gameWin }]
    else actions
  let (exit, g6) :=
    processActions rand (playTurnFuel g5 + actions.length) g5 pIdx playedCard
      false true actions
  finishTurn g6 exit

/-- Part 2 of `play_turn`: a standard (non-pending) card play. -/
def normalPlay (rand : Rand) (g : GameState) (pIdx : Nat) (cardIndex : Option Int)
    (chosenColorForWild : Option Color) : PTOutcome × GameState :=
  match cardIndex with
  | none => (.result false none, g)
  | some ci =>
    if ¬(0 ≤ ci ∧ ci < ((g.getP pIdx).handSize : Int)) then
      (.result false none, g)
    else
      let cardToPlayPeek := (g.getP pIdx).hand.getD ci.toNat ⟨Color.red, Rank.zero⟩
      match g.deck.getTopDiscardCard with
      | none => (.result false none, g)
      | some topDiscard =>
        match cardToPlayPeek.matches topDiscard g.currentWildColor with
        | .error m => (.exn m, g)
        | .ok false => (.result false none, g)
        | .ok true =>
          match (g.getP pIdx).playCard ci with
          | none => (.result false none, g)
          | some (playedCard, p') =>
            let g1 := g.setP pIdx p'
            let cardUnderneath := g1.deck.getTopDiscardCard
            let g2 := { g1 with deck := g1.deck.addToDiscard playedCard }
            let (g3, earlyWin) := duplicateStep g2 pIdx playedCard cardUnderneath
            if earlyWin then (.result true none, g3)
            else normalPlayAfterDup rand g3 pIdx playedCard chosenColorForWild

/-- `UnoGame.play_turn(player, card_index, action_input, chosen_color_for_wild)`.
The acting player is given by index (Python passes the `Player` object and
compares by identity, which coincides with list position). -/
def playTurn (rand : Rand) (g : GameState) (pIdx : Nat) (cardIndex : Option Int)
    (actionInput : Option ActionInput := none)
    (chosenColorForWild : Option Color := none) : PTOutcome × GameState :=
  if g.currentPlayerIndex < g.numPlayers then
    if g.pendingAction = none ∧ pIdx ≠ g.currentPlayerIndex then
      (.result false none, g)
    else if g.gameOver then
      (.result false none, g)
    else
      match g.pendingAction with
      | some pa =>
        let origIdx := g.actionData.originalPlayerIdx.getD g.currentPlayerIndex
        if origIdx < g.numPlayers then
          match pa.type with
          | .swapCardRight => resolveSwapCardRight g pIdx origIdx actionInput
          | .swapCardAny => resolveSwapCardAny g pIdx origIdx actionInput
          | .discardFromPlayerHand => resolveDiscardFromPlayerHand g pIdx actionInput
          | .playAnyAndDrawOne =>
            resolvePlayAnyAndDrawOne rand g pIdx origIdx cardIndex actionInput
          | .chooseColor => resolveChooseColor rand g pIdx actionInput
          | _ =>
            -- a pending action of any other type matches no resolver branch and
            -- control falls through to the standard-play code
            normalPlay rand g pIdx cardIndex chosenColorForWild
        else (.exn "IndexError: original initiator", g)
      | none => normalPlay rand g pIdx cardIndex chosenColorForWild
  else (.exn "IndexError: current player", g)

/-- The state change of playing a stored "Get Out of Jail Free" Yellow 4 in
`player_cannot_play_action`: the card leaves storage, goes to the discard
pile, clears the active wild color (a Yellow 4 is never wild) and awards its
color counter. -/
def playJailCard (g : GameState) (pIdx : Nat) (y4 : Card) : GameState :=
  let g1 := g.setP pIdx { g.getP pIdx with getOutOfJailYellow4 := none }
  let g2 := { g1 with deck := g1.deck.addToDiscard y4 }
  let g3 := if ¬y4.isWild then { g2 with currentWildColor := none } else g2
  g3.setP pIdx (awardColorCounters (g3.getP pIdx) y4)

/-- `UnoGame.player_cannot_play_action(player)`. -/
def playerCannotPlayAction (rand : Rand) (g : GameState) (pIdx : Nat) :
    CPOutcome × GameState :=
  if g.currentPlayerIndex < g.numPlayers then
    if pIdx ≠ g.currentPlayerIndex then (.result false, g)
    else if g.gameOver then (.result false, g)
    else
      -- pending-action gate
      let gate : Option (CPOutcome × GameState) :=
        match g.pendingAction with
        | none => none
        | some pa =>
          let e1 := g.actionData.originalPlayerIdx.getD g.currentPlayerIndex
          if e1 < g.numPlayers then
            let expected? : Except String Nat :=
              if pa.type == ActionType.discardFromPlayerHand then
                match g.actionData.chooserIdx with
                | none => .error "TypeError: players[None]"
                | some i => if i < g.numPlayers then .ok i else .error "IndexError"
              else if pa.type == ActionType.chooseColor then
                match g.actionData.playerIdx.orElse (fun _ => g.actionData.originalPlayerIdx) with
                | none => .error "TypeError: players[None]"
                | some i => if i < g.numPlayers then .ok i else .error "IndexError"
              else .ok e1
            match expected? with
            | .error m => some (.exn m, g)
            | .ok expected =>
              if pIdx = expected then some (.result false, g) else none
          else some (.exn "IndexError: expected actor", g)
      match gate with
      | some r => r
      | none =>
        -- "Get Out of Jail Free" Yellow 4, if stored and playable
        let jail : Option (Except String (CPOutcome × GameState)) :=
          match (g.getP pIdx).getOutOfJailYellow4 with
          | none => none
          | some y4 =>
            match g.deck.getTopDiscardCard with
            | none => none     -- condition `y4 and top and matches` is falsy
            | some top =>
              match y4.matches top g.currentWildColor with
              | .error m => some (.error m)
              | .ok false => none
              | .ok true =>
                let g4 := playJailCard g pIdx y4
                if (g4.getP pIdx).isHandEmpty ∧
                    (g4.getP pIdx).getOutOfJailYellow4 = none then
                  some (.ok (.result true, { g4 with gameOver := true, winner := some pIdx }))
                else
                  some (.ok (.result true, g4.advanceTurnMarker))
        match jail with
        | some (.error m) => (.exn m, g)
        | some (.ok r) => r
        | none =>
          -- draw one card
          let (drawnCards, g1) := playerDrawsCard rand g pIdx 1
          match drawnCards with
          | [] => (.result true, g1.advanceTurnMarker)
          | drawnCard :: _ =>
            match g1.deck.getTopDiscardCard with
            | none => (.result true, g1.advanceTurnMarker)
            | some top =>
              match drawnCard.matches top g1.currentWildColor with
              | .error m => (.exn m, g1)
              | .ok false => (.result true, g1.advanceTurnMarker)
              | .ok true =>
                -- auto-play the drawn card
                let g2 := g1.setP pIdx ((g1.getP pIdx).removeCardFromHand drawnCard)
                let g3 := { g2 with deck := g2.deck.addToDiscard drawnCard }
                let (chosenColorForDrawnWild, g4) :=
                  if drawnCard.isWild then
                    (some rand.randColor, { g3 with currentWildColor := some rand.randColor })
                  else
                    ((none : Option Color), { g3 with currentWildColor := none })
                let g5 := g4.setP pIdx (awardColorCounters (g4.getP pIdx) drawnCard)
                if (g5.getP pIdx).isHandEmpty then
                  (.result true, { g5 with gameOver := true, winner := some pIdx })
                else
                  let actions := getCardActions g5 drawnCard pIdx chosenColorForDrawnWild
                  match subEffectsLoop rand g5 pIdx false actions with
                  | .inr (m, g6) => (.exn m, g6)
                  | .inl (g6, skipFlag) =>
                    if g6.gameOver then (.result true, g6)
                    else
                      let g7 := g6.advanceTurnMarker
                      (.result true, if skipFlag then g7.advanceTurnMarker else g7)
  else (.exn "IndexError: current player", g)

/-! ## Claim C2: the matching rule -/

/-- **C2** (confirmed).  Matching rule of `Card.matches`: a wild candidate
matches anything; against a wild top card with a supplied active color the
candidate matches exactly when its color equals that active color; otherwise
the candidate matches exactly when its color equals the top card's color or
its rank equals the top card's rank. -/
theorem matches_rule (c top : Card) (col : Color) (anyCol : Option Color) :
    (c.isWild = true → c.matches top anyCol = .ok true) ∧
    (c.isWild = false → top.isWild = true →
      c.matches top (some col) = .ok (c.color == col)) ∧
    (c.isWild = false → top.isWild = false →
      c.matches top anyCol = .ok (c.color == top.color || c.rank == top.rank)) := by
  refine ⟨fun h => ?_, fun h h' => ?_, fun h h' => ?_⟩
  · simp [Card.matches, h]
  · simp [Card.matches, h, h']
  · simp [Card.matches, h, h']

/-- Witness for `matches_rule` at concrete cards. -/
theorem matches_rule_witness :
    (Card.mk Color.wild Rank.wild).matches ⟨Color.red, Rank.five⟩ none = .ok true ∧
    (Card.mk Color.red Rank.five).matches ⟨Color.wild, Rank.wild⟩ (some Color.red) =
      .ok (Color.red == Color.red) ∧
    (Card.mk Color.red Rank.five).matches ⟨Color.blue, Rank.five⟩ none =
      .ok (Color.red == Color.blue || Rank.five == Rank.five) := by
  refine ⟨?_, ?_, ?_⟩
  · exact (matches_rule ⟨Color.wild, Rank.wild⟩ ⟨Color.red, Rank.five⟩ Color.red none).1
      (by decide)
  · exact (matches_rule ⟨Color.red, Rank.five⟩ ⟨Color.wild, Rank.wild⟩ Color.red none).2.1
      (by decide) (by decide)
  · exact (matches_rule ⟨Color.red, Rank.five⟩ ⟨Color.blue, Rank.five⟩ Color.red none).2.2
      (by decide) (by decide)

/-! ## Claim C10: matching a wild top card without an active color -/

/-- **C10, counterexample.**  The claim says *every* pair with a wild
top-of-discard and no supplied color raises `ValueError`; but a *wild*
candidate returns `True` before the top card is ever examined. -/
theorem c10_counterexample :
    (Card.mk Color.wild Rank.wild).isWild = true ∧
    (Card.mk Color.wild Rank.wild).matches ⟨Color.wild, Rank.wildDrawFour⟩ none =
      .ok true :=
  ⟨rfl, rfl⟩

/-- **C10** (corrected).  For every *non-wild* candidate and wild
top-of-discard card with no active wild color supplied, `matches` raises a
`ValueError` rather than returning a boolean. -/
theorem matches_wild_top_no_color (c top : Card) (hc : c.isWild = false)
    (ht : top.isWild = true) :
    c.matches top none =
      .error "Cannot match against a Wild card without a chosen active color." := by
  simp [Card.matches, hc, ht]

/-- Witness for `matches_wild_top_no_color`. -/
theorem matches_wild_top_no_color_witness :
    (Card.mk Color.red Rank.five).matches ⟨Color.wild, Rank.wild⟩ none =
      .error "Cannot match against a Wild card without a chosen active color." :=
  matches_wild_top_no_color ⟨Color.red, Rank.five⟩ ⟨Color.wild, Rank.wild⟩
    (by decide) (by decide)

/-! ## Claim C9: the resource award -/

/-- **C9** (confirmed).  `_award_color_counters`: a wild card changes no
counter regardless of any chosen color; a non-wild card increments exactly
the one counter determined by its intrinsic color (Red → solar mana,
Yellow → coin, Green → shuffle token, Blue → lunar mana), leaving the other
three (and everything else about the player) unchanged. -/
theorem awardColorCounters_rule (p : Player) (c : Card) :
    (c.isWild = true → awardColorCounters p c = p) ∧
    (c.isWild = false →
      (c.color = Color.red →
        awardColorCounters p c = { p with solarMana := p.solarMana + 1 }) ∧
      (c.color = Color.yellow →
        awardColorCounters p c = { p with coins := p.coins + 1 }) ∧
      (c.color = Color.green →
        awardColorCounters p c = { p with shuffleCounters := p.shuffleCounters + 1 }) ∧
      (c.color = Color.blue →
        awardColorCounters p c = { p with lunarMana := p.lunarMana + 1 })) := by
  refine ⟨fun h => ?_, fun h => ⟨fun hc => ?_, fun hc => ?_, fun hc => ?_, fun hc => ?_⟩⟩
  · simp [awardColorCounters, h]
  all_goals simp [awardColorCounters, h, hc]

/-- Witness for `awardColorCounters_rule`. -/
theorem awardColorCounters_rule_witness :
    awardColorCounters (Player.fresh "A") ⟨Color.wild, Rank.wild⟩ = Player.fresh "A" ∧
    awardColorCounters (Player.fresh "A") ⟨Color.green, Rank.five⟩ =
      { Player.fresh "A" with shuffleCounters := (Player.fresh "A").shuffleCounters + 1 } := by
  constructor
  · exact (awardColorCounters_rule (Player.fresh "A") ⟨Color.wild, Rank.wild⟩).1 (by decide)
  · exact ((awardColorCounters_rule (Player.fresh "A") ⟨Color.green, Rank.five⟩).2
      (by decide)).2.2.1 rfl

/-! ## Claim C8: the reshuffle round-trip -/

/-- **C8** (confirmed).  For a deck with an empty draw pile and a non-empty
discard pile, `reshuffle_discard_pile_into_deck(keep_top_card=True)`
reshuffles: afterwards the draw pile, as a multiset, is exactly the old
discard pile minus its preserved top card, and the discard pile holds
exactly that preserved top card.  (`random.shuffle` is any permutation.) -/
theorem reshuffle_round_trip (shuffle : List Card → List Card)
    (hperm : ∀ l, (shuffle l).Perm l) (d : Deck)
    (hdraw : d.cards = []) (hdisc : d.discardPile ≠ []) :
    (d.reshuffleDiscardPileIntoDeck shuffle true).1 = true ∧
    (↑(d.reshuffleDiscardPileIntoDeck shuffle true).2.cards : Multiset Card) =
      ↑d.discardPile.dropLast ∧
    (d.reshuffleDiscardPileIntoDeck shuffle true).2.discardPile =
      [d.discardPile.getLast hdisc] := by
  have hne : d.discardPile.isEmpty = false := by
    simpa [List.isEmpty_iff] using hdisc
  have hlast : d.discardPile.getLast? = some (d.discardPile.getLast hdisc) :=
    List.getLast?_eq_getLast _ _
  refine ⟨?_, ?_, ?_⟩ <;>
    simp [Deck.reshuffleDiscardPileIntoDeck, hne, hlast, hdraw,
      Multiset.coe_eq_coe.mpr (hperm _)]

/-- Witness for `reshuffle_round_trip`. -/
theorem reshuffle_round_trip_witness :
    ((Deck.mk [] [⟨Color.red, Rank.one⟩, ⟨Color.blue, Rank.two⟩]).reshuffleDiscardPileIntoDeck
        id true).1 = true ∧
    (↑((Deck.mk [] [⟨Color.red, Rank.one⟩,
          ⟨Color.blue, Rank.two⟩]).reshuffleDiscardPileIntoDeck id true).2.cards :
        Multiset Card) =
      ↑([⟨Color.red, Rank.one⟩, ⟨Color.blue, Rank.two⟩] : List Card).dropLast ∧
    ((Deck.mk [] [⟨Color.red, Rank.one⟩, ⟨Color.blue, Rank.two⟩]).reshuffleDiscardPileIntoDeck
        id true).2.discardPile =
      [([⟨Color.red, Rank.one⟩, ⟨Color.blue, Rank.two⟩] : List Card).getLast (by simp)] :=
  reshuffle_round_trip id (fun l => List.Perm.refl l)
    (Deck.mk [] [⟨Color.red, Rank.one⟩, ⟨Color.blue, Rank.two⟩]) rfl (by simp)

/-! ## State infrastructure lemmas -/

/-- Cards held by one player: hand plus the stored jail card, if any. -/
def Player.cardCount (p : Player) : Nat :=
  p.hand.length + (if p.getOutOfJailYellow4.isSome then 1 else 0)

/-- The total number of cards in the system: draw pile + discard pile +
all hands + stored jail cards. -/
def totalCards (g : GameState) : Nat :=
  g.deck.cards.length + g.deck.discardPile.length +
    (g.players.map Player.cardCount).sum

/-- The shuffle oracle preserves list length (true of any permutation). -/
def Rand.LenPres (rand : Rand) : Prop :=
  ∀ l, (rand.shuffle l).length = l.length

theorem getP_setP_self (g : GameState) (i : Nat) (p : Player)
    (h : i < g.players.length) : (g.setP i p).getP i = p := by
  simp [GameState.setP, GameState.getP, List.getD,
    List.getElem?_set_self', List.getElem?_eq_getElem h]

theorem getP_setP_ne (g : GameState) (i j : Nat) (p : Player) (h : i ≠ j) :
    (g.setP i p).getP j = g.getP j := by
  simp [GameState.setP, GameState.getP, List.getD, List.getElem?_set_ne h]

theorem numPlayers_setP (g : GameState) (i : Nat) (p : Player) :
    (g.setP i p).numPlayers = g.numPlayers := by
  simp [GameState.setP, GameState.numPlayers]

theorem sum_map_set (f : Player → Nat) (l : List Player) (i : Nat) (p dflt : Player)
    (h : i < l.length) :
    ((l.set i p).map f).sum + f (l.getD i dflt) = (l.map f).sum + f p := by
  induction l generalizing i with
  | nil => simp at h
  | cons x xs ih =>
    cases i with
    | zero => simp [Nat.add_comm, Nat.add_left_comm]
    | succ i =>
      simp only [List.set, List.map, List.sum_cons, List.getD_cons_succ]
      have := ih i (by simpa using h)
      omega

theorem totalCards_setP (g : GameState) (i : Nat) (p : Player)
    (h : i < g.players.length) :
    totalCards (g.setP i p) + (g.getP i).cardCount = totalCards g + p.cardCount := by
  have hsum := sum_map_set Player.cardCount g.players i p (Player.fresh "?") h
  simp only [totalCards, GameState.setP, GameState.getP] at *
  omega

theorem totalCards_setP_addCard (g : GameState) (i : Nat) (c : Card)
    (h : i < g.players.length) :
    totalCards (g.setP i ((g.getP i).addCardToHand c)) = totalCards g + 1 := by
  have := totalCards_setP g i ((g.getP i).addCardToHand c) h
  have hcc : ((g.getP i).addCardToHand c).cardCount = (g.getP i).cardCount + 1 := by
    simp [Player.cardCount, Player.addCardToHand]
    omega
  omega

/-- Changing only the counters of a player leaves the card count alone. -/
theorem totalCards_setP_sameCount (g : GameState) (i : Nat) (p : Player)
    (h : i < g.players.length) (hcc : p.cardCount = (g.getP i).cardCount) :
    totalCards (g.setP i p) = totalCards g := by
  have := totalCards_setP g i p h
  omega

theorem totalCards_handleDrawPileEmpty (rand : Rand) (g : GameState) (pIdx : Nat)
    (hlen : rand.LenPres) (h : pIdx < g.players.length) :
    totalCards (handleDrawPileEmpty rand g pIdx).2 = totalCards g := by
  unfold handleDrawPileEmpty
  by_cases hr : g.deck.needsReshuffle
  · simp only [hr, if_true]
    by_cases ht : (g.getP pIdx).shuffleCounters > 0
    · simp only [ht, if_true]
      have hset : totalCards
          (g.setP pIdx { g.getP pIdx with
            shuffleCounters := (g.getP pIdx).shuffleCounters - 1 }) = totalCards g := by
        apply totalCards_setP_sameCount _ _ _ h
        simp [Player.cardCount]
      set g1 := g.setP pIdx { g.getP pIdx with
        shuffleCounters := (g.getP pIdx).shuffleCounters - 1 } with hg1
      have hdisc : g1.deck.discardPile ≠ [] := by
        have : g.deck.needsReshuffle = true := hr
        simp only [Deck.needsReshuffle, Deck.isEmpty, Bool.and_eq_true,
          Bool.not_eq_true', List.isEmpty_eq_false] at this
        simpa [hg1, GameState.setP] using this.2
      have hde : g1.deck.discardPile.isEmpty = false := by
        simpa [List.isEmpty_iff] using hdisc
      have hlast : g1.deck.discardPile.getLast? =
          some (g1.deck.discardPile.getLast hdisc) := List.getLast?_eq_getLast _ _
      have hres : totalCards { g1 with
          deck := (g1.deck.reshuffleDiscardPileIntoDeck rand.shuffle true).2 } =
          totalCards g1 := by
        simp only [totalCards, Deck.reshuffleDiscardPileIntoDeck, hde, hlast,
          Bool.false_eq_true, if_false, if_true]
        have hlenres := hlen (g1.deck.cards ++ g1.deck.discardPile.dropLast)
        have hdl : g1.deck.discardPile.dropLast.length =
            g1.deck.discardPile.length - 1 := by simp
        have hpos : 0 < g1.deck.discardPile.length := List.length_pos.mpr hdisc
        simp only [hlenres, List.length_append, List.length_cons,
          List.length_nil]
        omega
      split
      · next =>
        rw [hres, hset]
      · next =>
        rw [hres, hset]
    · simp only [ht, if_false]
  · simp only [hr, Bool.false_eq_true, if_false]
    split <;> rfl

theorem Deck.drawCard_some {d : Deck} {c : Card} {d' : Deck}
    (h : d.drawCard = some (c, d')) :
    d'.cards.length + 1 = d.cards.length ∧ d'.discardPile = d.discardPile := by
  unfold Deck.drawCard at h
  rcases hl : d.cards.getLast? with _ | x <;> rw [hl] at h
  · cases h
  · cases h
    have hne : d.cards ≠ [] := by
      intro hnil
      rw [hnil] at hl
      simp at hl
    have hpos : 0 < d.cards.length := List.length_pos.mpr hne
    refine ⟨?_, rfl⟩
    simp only [List.length_dropLast]
    omega

theorem players_length_handleDrawPileEmpty (rand : Rand) (g : GameState) (pIdx : Nat) :
    ((handleDrawPileEmpty rand g pIdx).2).players.length = g.players.length := by
  simp only [handleDrawPileEmpty]
  repeat' split
  all_goals simp [GameState.setP]

theorem players_length_playerDrawsCard (rand : Rand) (g : GameState) (pIdx n : Nat) :
    ((playerDrawsCard rand g pIdx n).2).players.length = g.players.length := by
  induction n generalizing g with
  | zero => rfl
  | succ n ih =>
    unfold playerDrawsCard
    rcases hhd : handleDrawPileEmpty rand g pIdx with ⟨can, g1⟩
    have hg1 : g1.players.length = g.players.length := by
      have := players_length_handleDrawPileEmpty rand g pIdx
      rw [hhd] at this
      exact this
    cases can with
    | false => simpa using hg1
    | true =>
      simp only [Bool.not_true, Bool.false_eq_true, if_false]
      rcases hdc : g1.deck.drawCard with _ | ⟨c, deck'⟩
      · simpa using hg1
      · simp only
        rcases hrec : playerDrawsCard rand
            (({ g1 with deck := deck' } : GameState).setP pIdx
              ((({ g1 with deck := deck' } : GameState).getP pIdx).addCardToHand c))
            pIdx n with ⟨rest, g4⟩
        have := ih (({ g1 with deck := deck' } : GameState).setP pIdx
          ((({ g1 with deck := deck' } : GameState).getP pIdx).addCardToHand c))
        rw [hrec] at this
        simpa [GameState.setP, hg1] using this

theorem totalCards_playerDrawsCard (rand : Rand) (g : GameState) (pIdx n : Nat)
    (hlen : rand.LenPres) (h : pIdx < g.players.length) :
    totalCards (playerDrawsCard rand g pIdx n).2 = totalCards g := by
  induction n generalizing g with
  | zero => rfl
  | succ n ih =>
    unfold playerDrawsCard
    have hh := totalCards_handleDrawPileEmpty rand g pIdx hlen h
    have hpl := players_length_handleDrawPileEmpty rand g pIdx
    rcases hhd : handleDrawPileEmpty rand g pIdx with ⟨can, g1⟩
    rw [hhd] at hh hpl
    dsimp only at hh hpl
    cases can with
    | false => simpa using hh
    | true =>
      simp only [Bool.not_true, Bool.false_eq_true, if_false]
      rcases hdc : g1.deck.drawCard with _ | ⟨c, deck'⟩
      · simpa using hh
      · simp only
        obtain ⟨hdlen, hddisc⟩ := Deck.drawCard_some hdc
        set g2 : GameState := { g1 with deck := deck' } with hg2
        have hp2 : pIdx < g2.players.length := by
          simp only [hg2]
          omega
        set g3 : GameState := g2.setP pIdx ((g2.getP pIdx).addCardToHand c) with hg3
        have h2 : totalCards g2 + 1 = totalCards g1 := by
          simp only [totalCards, hg2, hddisc]
          omega
        have h3 : totalCards g3 = totalCards g2 + 1 :=
          totalCards_setP_addCard g2 pIdx c hp2
        have hp3 : pIdx < g3.players.length := by
          simp only [hg3, GameState.setP, List.length_set]
          exact hp2
        have hrec := ih (g3) hp3
        rcases hr : playerDrawsCard rand g3 pIdx n with ⟨rest, g4⟩
        rw [hr] at hrec
        dsimp only at hrec
        simp only
        omega

/-! ## Claim C7: silent draw exhaustion -/

theorem playerDrawsCard_length_le (rand : Rand) (g : GameState) (pIdx n : Nat) :
    (playerDrawsCard rand g pIdx n).1.length ≤ n := by
  induction n generalizing g with
  | zero => simp [playerDrawsCard]
  | succ n ih =>
    unfold playerDrawsCard
    rcases hhd : handleDrawPileEmpty rand g pIdx with ⟨can, g1⟩
    cases can with
    | false => simp
    | true =>
      simp only [Bool.not_true, Bool.false_eq_true, if_false]
      rcases hdc : g1.deck.drawCard with _ | ⟨c, deck'⟩
      · simp
      · simp only
        rcases hr : playerDrawsCard rand
            (({ g1 with deck := deck' } : GameState).setP pIdx
              ((({ g1 with deck := deck' } : GameState).getP pIdx).addCardToHand c))
            pIdx n with ⟨rest, g4⟩
        have := ih (({ g1 with deck := deck' } : GameState).setP pIdx
          ((({ g1 with deck := deck' } : GameState).getP pIdx).addCardToHand c))
        rw [hr] at this
        simpa using this

theorem handleDrawPileEmpty_spends_token (rand : Rand) (g : GameState) (pIdx : Nat)
    (hperm : ∀ l, (rand.shuffle l).Perm l)
    (h : pIdx < g.players.length) (hr : g.deck.needsReshuffle = true)
    (ht : 0 < (g.getP pIdx).shuffleCounters) :
    ((handleDrawPileEmpty rand g pIdx).2.getP pIdx).shuffleCounters + 1 =
      (g.getP pIdx).shuffleCounters ∧
    (handleDrawPileEmpty rand g pIdx).2.deck.getTopDiscardCard =
      g.deck.getTopDiscardCard ∧
    (↑(handleDrawPileEmpty rand g pIdx).2.deck.cards : Multiset Card) =
      ↑g.deck.discardPile.dropLast := by
  have hcards : g.deck.cards = [] := by
    have := hr
    simp only [Deck.needsReshuffle, Deck.isEmpty, Bool.and_eq_true,
      List.isEmpty_iff] at this
    exact this.1
  have hdisc : g.deck.discardPile ≠ [] := by
    have := hr
    simp only [Deck.needsReshuffle, Deck.isEmpty, Bool.and_eq_true,
      Bool.not_eq_true', List.isEmpty_eq_false] at this
    exact this.2
  have hde : g.deck.discardPile.isEmpty = false := by
    simpa [List.isEmpty_iff] using hdisc
  have hlast : g.deck.discardPile.getLast? =
      some (g.deck.discardPile.getLast hdisc) := List.getLast?_eq_getLast _ _
  unfold handleDrawPileEmpty
  simp only [hr, if_true, ht, gt_iff_lt]
  set p1 : Player := { g.getP pIdx with
    shuffleCounters := (g.getP pIdx).shuffleCounters - 1 } with hp1
  set g1 : GameState := g.setP pIdx p1 with hg1
  have hg1deck : g1.deck = g.deck := by simp [hg1, GameState.setP]
  have hres : (g1.deck.reshuffleDiscardPileIntoDeck rand.shuffle true).2 =
      { cards := rand.shuffle (g.deck.cards ++ g.deck.discardPile.dropLast),
        discardPile := [g.deck.discardPile.getLast hdisc] } := by
    simp [Deck.reshuffleDiscardPileIntoDeck, hg1deck, hde, hlast]
  have hgetp : ∀ d : Deck, (({ g1 with deck := d } : GameState).getP pIdx) = p1 := by
    intro d
    have : ({ g1 with deck := d } : GameState).getP pIdx = g1.getP pIdx := by
      simp [GameState.getP, hg1, GameState.setP]
    rw [this, hg1]
    exact getP_setP_self g pIdx p1 h
  refine ⟨?_, ?_, ?_⟩
  · split <;>
      · simp only [hres, hgetp, hp1, hcards, List.nil_append]
        omega
  · split <;>
      · simp only [hres, hgetp, hp1, hcards, List.nil_append]
        simp [Deck.getTopDiscardCard, hg1deck, hlast]
  · split <;>
      · simp only [hres, hgetp, hp1, hcards, List.nil_append]
        exact Multiset.coe_eq_coe.mpr (hperm _)

theorem playerDrawsCard_exhausted (rand : Rand) (g : GameState) (pIdx n : Nat)
    (hcards : g.deck.cards = []) (htok : (g.getP pIdx).shuffleCounters = 0) :
    playerDrawsCard rand g pIdx n = ([], g) := by
  cases n with
  | zero => rfl
  | succ n =>
    have hhd : handleDrawPileEmpty rand g pIdx = (false, g) := by
      unfold handleDrawPileEmpty
      by_cases hd : g.deck.discardPile.isEmpty
      · have hnr : g.deck.needsReshuffle = false := by
          simp [Deck.needsReshuffle, hd]
        simp [hnr, Deck.isEmpty, hcards]
      · have hnr : g.deck.needsReshuffle = true := by
          simp only [Bool.not_eq_true] at hd
          simp [Deck.needsReshuffle, Deck.isEmpty, hcards, hd]
        simp [hnr, htok]
    unfold playerDrawsCard
    rw [hhd]
    simp

theorem cannotPlay_exhausted_completes (rand : Rand) (g : GameState) (pIdx : Nat)
    (hp : pIdx < g.players.length) (hcur : g.currentPlayerIndex = pIdx)
    (hover : g.gameOver = false) (hpend : g.pendingAction = none)
    (hjail : (g.getP pIdx).getOutOfJailYellow4 = none)
    (hcards : g.deck.cards = []) (htok : (g.getP pIdx).shuffleCounters = 0) :
    playerCannotPlayAction rand g pIdx = (.result true, g.advanceTurnMarker) := by
  have hlt : g.currentPlayerIndex < g.numPlayers := by
    rw [hcur]
    exact hp
  have hp' : pIdx < g.numPlayers := hcur ▸ hlt
  unfold playerCannotPlayAction
  simp [hlt, hcur, hover, hpend, hjail, hp',
    playerDrawsCard_exhausted rand g pIdx 1 hcards htok]

/-- **C7** (confirmed).  Draw exhaustion is silent: (1) drawing `n` cards
yields at most `n` cards; (2) when the draw pile is empty and the discard
pile is not, a draw spends exactly one shuffle token of the drawing player
and reshuffles, preserving the top of discard (the new draw pile is, as a
multiset, the old discard pile minus its top); (3) a player with zero
shuffle tokens facing an empty draw pile receives zero cards and the state
is untouched — no exception; (4) in that situation the surrounding
`player_cannot_play_action` turn still resolves to completion: it succeeds
and simply advances the turn. -/
theorem draw_exhaustion_silent (rand : Rand) (g : GameState) (pIdx n : Nat)
    (hperm : ∀ l, (rand.shuffle l).Perm l) :
    ((playerDrawsCard rand g pIdx n).1.length ≤ n) ∧
    (pIdx < g.players.length → g.deck.needsReshuffle = true →
      0 < (g.getP pIdx).shuffleCounters →
      ((handleDrawPileEmpty rand g pIdx).2.getP pIdx).shuffleCounters + 1 =
          (g.getP pIdx).shuffleCounters ∧
        (handleDrawPileEmpty rand g pIdx).2.deck.getTopDiscardCard =
          g.deck.getTopDiscardCard ∧
        (↑(handleDrawPileEmpty rand g pIdx).2.deck.cards : Multiset Card) =
          ↑g.deck.discardPile.dropLast) ∧
    (g.deck.cards = [] → (g.getP pIdx).shuffleCounters = 0 →
      playerDrawsCard rand g pIdx n = ([], g)) ∧
    (g.deck.cards = [] → (g.getP pIdx).shuffleCounters = 0 →
      pIdx < g.players.length → g.currentPlayerIndex = pIdx → g.gameOver = false →
      g.pendingAction = none → (g.getP pIdx).getOutOfJailYellow4 = none →
      playerCannotPlayAction rand g pIdx = (.result true, g.advanceTurnMarker)) := by
  refine ⟨playerDrawsCard_length_le rand g pIdx n,
    fun h hr ht => handleDrawPileEmpty_spends_token rand g pIdx hperm h hr ht,
    fun hc htok => playerDrawsCard_exhausted rand g pIdx n hc htok,
    fun hc htok hp hcur hover hpend hjail =>
      cannotPlay_exhausted_completes rand g pIdx hp hcur hover hpend hjail hc htok⟩

/-- A tiny concrete state: two players, empty draw pile, one discarded card,
player 0 to move with no shuffle tokens and no jail card. -/
def c7State : GameState where
  deck := { cards := [], discardPile := [⟨Color.red, Rank.one⟩] }
  players :=
    [{ Player.fresh "A" with hand := [⟨Color.green, Rank.seven⟩] },
     { Player.fresh "B" with hand := [⟨Color.blue, Rank.two⟩] }]
  currentPlayerIndex := 0
  gameOver := false
  winner := none
  playDirection := 1
  currentWildColor := none
  pendingAction := none
  actionData := {}

/-- Witness for `draw_exhaustion_silent`, applying it at `c7State` (token
exhaustion) and at the same state with a shuffle token (reshuffle part). -/
theorem draw_exhaustion_silent_witness :
    (playerCannotPlayAction detRand c7State 0 = (.result true, c7State.advanceTurnMarker)) ∧
    ((handleDrawPileEmpty detRand
        (c7State.setP 0 { c7State.getP 0 with shuffleCounters := 1 }) 0).2.getP 0).shuffleCounters + 1 =
      ((c7State.setP 0 { c7State.getP 0 with shuffleCounters := 1 }).getP 0).shuffleCounters := by
  constructor
  · exact ((draw_exhaustion_silent detRand c7State 0 1
      (fun l => List.Perm.refl l)).2.2.2) rfl rfl (by decide) rfl rfl rfl rfl
  · exact ((draw_exhaustion_silent detRand
      (c7State.setP 0 { c7State.getP 0 with shuffleCounters := 1 }) 0 1
      (fun l => List.Perm.refl l)).2.1 (by decide) (by decide) (by decide)).1

/-! ## Claim C1: card conservation — building blocks -/

/-- One call's state change preserves both the total card count and the
number of players. -/
def Conserves (g g' : GameState) : Prop :=
  totalCards g' = totalCards g ∧ g'.players.length = g.players.length

theorem Conserves.refl (g : GameState) : Conserves g g := ⟨rfl, rfl⟩

theorem Conserves.trans {g1 g2 g3 : GameState} (h12 : Conserves g1 g2)
    (h23 : Conserves g2 g3) : Conserves g1 g3 :=
  ⟨h23.1.trans h12.1, h23.2.trans h12.2⟩

theorem Player.playCard_some {p : Player} {i : Int} {c : Card} {p' : Player}
    (h : p.playCard i = some (c, p')) :
    p'.cardCount + 1 = p.cardCount ∧ p'.getOutOfJailYellow4 = p.getOutOfJailYellow4 ∧
      p'.shuffleCounters = p.shuffleCounters := by
  unfold Player.playCard at h
  split at h
  · next hb =>
    dsimp only at h
    rcases hg : p.hand[i.toNat]? with _ | x <;> rw [hg] at h
    · cases h
    · cases h
      have hi : i.toNat < p.hand.length := by
        have := List.getElem?_eq_some_iff.mp hg
        exact this.1
      refine ⟨?_, rfl, rfl⟩
      simp only [Player.cardCount, List.length_eraseIdx, hi, if_true]
      omega
  · cases h

theorem totalCards_setP_playCard {g : GameState} {i : Nat} {ci : Int} {c : Card}
    {p' : Player} (h : (g.getP i).playCard ci = some (c, p'))
    (hi : i < g.players.length) :
    totalCards (g.setP i p') + 1 = totalCards g := by
  have hp := (Player.playCard_some h).1
  have := totalCards_setP g i p' hi
  omega

theorem conserves_pop_then_discard {g : GameState} {i : Nat} {ci : Int} {c : Card}
    {p' : Player} (h : (g.getP i).playCard ci = some (c, p'))
    (hi : i < g.players.length) :
    Conserves g { g.setP i p' with deck := (g.setP i p').deck.addToDiscard c } := by
  have h1 := totalCards_setP_playCard h hi
  constructor
  · simp only [totalCards, Deck.addToDiscard, List.length_append, List.length_cons,
      List.length_nil]
    simp only [totalCards] at h1
    simp only [GameState.setP] at *
    omega
  · simp [GameState.setP]

theorem playerIdxAtOffset_lt (g : GameState) (b : Nat) (off : Int)
    (h : 0 < g.numPlayers) :
    g.playerIdxAtOffset b off < g.numPlayers := by
  unfold GameState.playerIdxAtOffset
  have hn0 : (0 : Int) < (g.numPlayers : Int) := by exact_mod_cast h
  have hlt := Int.emod_lt_of_pos ((b : Int) + off + (g.numPlayers : Int)) hn0
  have hge := Int.emod_nonneg ((b : Int) + off + (g.numPlayers : Int)) (ne_of_gt hn0)
  omega

theorem conserves_handleDrawPileEmpty (rand : Rand) (g : GameState) (pIdx : Nat)
    (hlen : rand.LenPres) (h : pIdx < g.players.length) :
    Conserves g (handleDrawPileEmpty rand g pIdx).2 :=
  ⟨totalCards_handleDrawPileEmpty rand g pIdx hlen h,
   players_length_handleDrawPileEmpty rand g pIdx⟩

theorem conserves_playerDrawsCard (rand : Rand) (g : GameState) (pIdx n : Nat)
    (hlen : rand.LenPres) (h : pIdx < g.players.length) :
    Conserves g (playerDrawsCard rand g pIdx n).2 :=
  ⟨totalCards_playerDrawsCard rand g pIdx n hlen h,
   players_length_playerDrawsCard rand g pIdx n⟩

theorem conserves_advanceTurnMarker (g : GameState) :
    Conserves g g.advanceTurnMarker := ⟨rfl, rfl⟩

theorem conserves_finishPendingFrom (g : GameState) (i : Nat) :
    Conserves g (g.finishPendingFrom i) := ⟨rfl, rfl⟩

theorem conserves_swapExchange (g : GameState) (a o : Nat) (gi ti : Int)
    (ha : a < g.players.length) (ho : o < g.players.length) :
    Conserves g (swapExchange g a o gi ti) := by
  unfold swapExchange
  rcases h1 : (g.getP a).playCard gi with _ | ⟨cg, actor'⟩
  · dsimp only
    rcases h2 : (g.getP o).playCard ti with _ | ⟨ct, other'⟩
    · exact Conserves.refl g
    · dsimp only
      -- pop from o, then add back to o
      have hpop := totalCards_setP_playCard h2 ho
      have hadd := totalCards_setP_addCard (g.setP o other') o ct
        (by simpa [GameState.setP] using ho)
      exact ⟨by omega, by simp [GameState.setP]⟩
  · dsimp only
    have hpop1 := totalCards_setP_playCard h1 ha
    have ho1 : o < (g.setP a actor').players.length := by
      simpa [GameState.setP] using ho
    have ha1 : a < (g.setP a actor').players.length := by
      simpa [GameState.setP] using ha
    rcases h2 : ((g.setP a actor').getP o).playCard ti with _ | ⟨ct, other'⟩
    · -- rollback: add the given card back to a
      dsimp only
      have hadd := totalCards_setP_addCard (g.setP a actor') a cg ha1
      exact ⟨by omega, by simp [GameState.setP]⟩
    · dsimp only
      have hpop2 := totalCards_setP_playCard h2 ho1
      set g2 := (g.setP a actor').setP o other' with hg2
      have ha2 : a < g2.players.length := by simpa [hg2, GameState.setP] using ha
      have hadd1 := totalCards_setP_addCard g2 a ct ha2
      set g3 := g2.setP a ((g2.getP a).addCardToHand ct) with hg3
      have ho3 : o < g3.players.length := by simpa [hg3, hg2, GameState.setP] using ho
      have hadd2 := totalCards_setP_addCard g3 o cg ho3
      exact ⟨by omega, by simp [hg3, hg2, GameState.setP]⟩

theorem conserves_discardPopLoop (g : GameState) (v : Nat) (removed : List Card)
    (idxs : List Int) (hv : v < g.players.length) :
    totalCards (discardPopLoop g v removed idxs).2.2 +
        (discardPopLoop g v removed idxs).2.1.length =
      totalCards g + removed.length ∧
    (discardPopLoop g v removed idxs).2.2.players.length = g.players.length := by
  induction idxs generalizing g removed with
  | nil => simp [discardPopLoop]
  | cons idx rest ih =>
    unfold discardPopLoop
    dsimp only
    split
    · rcases hpc : (g.getP v).playCard idx with _ | ⟨c, victim'⟩
      · simp
      · simp only
        have hpop := totalCards_setP_playCard hpc hv
        have hv' : v < (g.setP v victim').players.length := by
          simpa [GameState.setP] using hv
        have := ih (g.setP v victim') (removed ++ [c]) hv'
        have hlen2 : (removed ++ [c]).length = removed.length + 1 := by simp
        constructor
        · omega
        · have h2 := this.2
          simpa [GameState.setP] using h2
    · simp

theorem foldl_pair_erase_append (ts h0 d0 : List Card) :
    ts.foldl (fun (hd : List Card × List Card) c => (hd.1.erase c, hd.2 ++ [c])) (h0, d0) =
      (ts.foldl (fun h c => h.erase c) h0, d0 ++ ts) := by
  induction ts generalizing h0 d0 with
  | nil => simp
  | cons c ts ih => simp [ih]

theorem foldl_erase_cons (p : Card → Bool) (ts : List Card) (x : Card) (xs : List Card)
    (hts : ∀ c ∈ ts, p c = true) (hx : p x = false) :
    ts.foldl (fun h c => h.erase c) (x :: xs) =
      x :: ts.foldl (fun h c => h.erase c) xs := by
  induction ts generalizing xs with
  | nil => rfl
  | cons c ts ih =>
    have hc : p c = true := hts c (by simp)
    have hne : x ≠ c := by
      intro he
      rw [he, hc] at hx
      cases hx
    simp only [List.foldl_cons]
    rw [List.erase_cons_tail (by simpa using hne)]
    exact ih (xs.erase c) (fun d hd => hts d (by simp [hd]))

theorem foldl_erase_filter (p : Card → Bool) (l : List Card) :
    (l.filter p).foldl (fun h c => h.erase c) l = l.filter (fun c => !p c) := by
  induction l with
  | nil => rfl
  | cons x xs ih =>
    by_cases hx : p x
    · rw [List.filter_cons_of_pos hx]
      simp only [List.foldl_cons, List.erase_cons_head]
      rw [ih, List.filter_cons_of_neg (by simp [hx])]
    · rw [List.filter_cons_of_neg hx]
      rw [foldl_erase_cons p _ x xs (fun c hc => List.of_mem_filter hc)
        (by simpa using hx)]
      rw [ih, List.filter_cons_of_pos (by simpa using hx)]

theorem length_filter_add_length_filter_not (p : Card → Bool) (l : List Card) :
    (l.filter p).length + (l.filter fun c => !p c).length = l.length := by
  induction l with
  | nil => rfl
  | cons x xs ih =>
    by_cases hx : p x <;> simp [hx, List.filter_cons] <;> omega

theorem conserves_duplicateStep (g : GameState) (pIdx : Nat) (played : Card)
    (underneath : Option Card) (h : pIdx < g.players.length) :
    Conserves g (duplicateStep g pIdx played underneath).1 := by
  unfold duplicateStep
  rcases underneath with _ | u
  · exact Conserves.refl g
  · dsimp only
    split
    · split
      · exact Conserves.refl g
      · rw [foldl_pair_erase_append]
        dsimp only
        rw [foldl_erase_filter]
        set p := g.getP pIdx with hp
        set newHand := p.hand.filter (fun c => !(c.rank == Rank.two)) with hnh
        have hlen := length_filter_add_length_filter_not
          (fun c => c.rank == Rank.two) p.hand
        have hset := totalCards_setP g pIdx { p with hand := newHand } h
        rw [← hp] at hset
        have hcount : ({ p with hand := newHand } : Player).cardCount +
            (p.hand.filter (fun c => c.rank == Rank.two)).length = p.cardCount := by
          simp only [Player.cardCount, hnh]
          omega
        have hcons : Conserves g
            ({ g.setP pIdx { p with hand := newHand } with
                deck := { g.deck with discardPile :=
                  g.deck.discardPile ++ p.hand.filter (fun c => c.rank == Rank.two) } }) := by
          constructor
          · simp only [totalCards, GameState.setP, List.length_append] at *
            omega
          · simp [GameState.setP]
        split
        · exact ⟨hcons.1, hcons.2⟩
        · exact hcons
    · exact Conserves.refl g

/-- The state carried by a sub-effects loop result (normal or raising). -/
def loopStateOf : (GameState × Bool) ⊕ (String × GameState) → GameState
  | .inl (g, _) => g
  | .inr (_, g) => g

theorem conserves_subEffectsLoop (rand : Rand) (hlen : rand.LenPres) :
    ∀ (acts : List GameAction) (g : GameState) (baseIdx : Nat) (skipFlag : Bool),
      0 < g.players.length →
      Conserves g (loopStateOf (subEffectsLoop rand g baseIdx skipFlag acts)) := by
  intro acts
  induction acts with
  | nil => exact fun g baseIdx s _ => Conserves.refl g
  | cons a rest ih =>
    intro g baseIdx s h0
    unfold subEffectsLoop
    split
    · exact ⟨rfl, rfl⟩
    · split
      · rcases hv : a.value with _ | v
        · exact Conserves.refl g
        · rcases v with n | c | ⟨cnt, fidx⟩
          · dsimp only
            have hvic : g.playerIdxAtOffset baseIdx
                (g.playDirection * a.targetPlayerOffset.getD 1) < g.numPlayers :=
              playerIdxAtOffset_lt g baseIdx _ h0
            have hdraw := conserves_playerDrawsCard rand g
              (g.playerIdxAtOffset baseIdx (g.playDirection * a.targetPlayerOffset.getD 1))
              n.toNat hlen hvic
            rcases hd : playerDrawsCard rand g
                (g.playerIdxAtOffset baseIdx
                  (g.playDirection * a.targetPlayerOffset.getD 1)) n.toNat with ⟨dc, g'⟩
            rw [hd] at hdraw
            dsimp only at hdraw ⊢
            exact hdraw.trans (ih g' baseIdx s (by rw [hdraw.2]; exact h0))
          · exact Conserves.refl g
          · exact Conserves.refl g
      · split
        · exact ih g baseIdx true h0
        · split
          · exact (Conserves.refl _).trans (ih _ baseIdx s h0)
          · exact ih g baseIdx s h0

theorem conserves_remainingActionsLoop (rand : Rand) (hlen : rand.LenPres) :
    ∀ (acts : List GameAction) (g : GameState) (baseIdx : Nat) (skipFlag : Bool),
      0 < g.players.length →
      Conserves g (loopStateOf (remainingActionsLoop rand g baseIdx skipFlag acts)) := by
  intro acts
  induction acts with
  | nil => exact fun g baseIdx s _ => Conserves.refl g
  | cons a rest ih =>
    intro g baseIdx s h0
    unfold remainingActionsLoop
    split
    · rcases hv : a.value with _ | v
      · exact Conserves.refl g
      · rcases v with n | c | ⟨cnt, fidx⟩
        · dsimp only
          have hvic : g.playerIdxAtOffset baseIdx
              (g.playDirection * a.targetPlayerOffset.getD 1) < g.numPlayers :=
            playerIdxAtOffset_lt g baseIdx _ h0
          have hdraw := conserves_playerDrawsCard rand g
            (g.playerIdxAtOffset baseIdx (g.playDirection * a.targetPlayerOffset.getD 1))
            n.toNat hlen hvic
          rcases hd : playerDrawsCard rand g
              (g.playerIdxAtOffset baseIdx
                (g.playDirection * a.targetPlayerOffset.getD 1)) n.toNat with ⟨dc, g'⟩
          rw [hd] at hdraw
          dsimp only at hdraw ⊢
          exact hdraw.trans (ih g' baseIdx s (by rw [hdraw.2]; exact h0))
        · exact Conserves.refl g
        · exact Conserves.refl g
    · split
      · exact ih g baseIdx true h0
      · exact ih g baseIdx s h0

theorem conserves_processActions (rand : Rand) (hlen : rand.LenPres) :
    ∀ (fuel : Nat) (acts : List GameAction) (g : GameState) (pIdx : Nat) (played : Card)
      (s adv : Bool), pIdx < g.players.length →
      Conserves g (processActions rand fuel g pIdx played s adv acts).2 := by
  intro fuel
  induction fuel with
  | zero =>
    intro acts g pIdx played s adv _
    exact Conserves.refl g
  | succ fuel ih =>
    intro acts g pIdx played s adv hp
    have h0 : 0 < g.players.length := by omega
    rcases acts with _ | ⟨a, rest⟩
    · exact Conserves.refl g
    unfold processActions
    by_cases h1 : (a.type == ActionType.gameWin) = true
    · rw [if_pos h1]
      exact ⟨rfl, rfl⟩
    rw [if_neg h1]
    by_cases h2 : (a.type == ActionType.chooseColor) = true
    · rw [if_pos h2]
      rcases hv : a.value with _ | v
      · exact ⟨rfl, rfl⟩
      · rcases v with n | c | ⟨cnt, fidx⟩
        · exact ⟨rfl, rfl⟩
        · exact (Conserves.refl _).trans
            (ih rest { g with currentWildColor := some c } pIdx played s adv hp)
        · exact ⟨rfl, rfl⟩
    rw [if_neg h2]
    by_cases h3 : (a.type == ActionType.drawCards) = true
    · rw [if_pos h3]
      rcases hv : a.value with _ | v
      · exact Conserves.refl g
      · rcases v with n | c | ⟨cnt, fidx⟩
        · dsimp only
          have hvic : g.playerIdxAtOffset pIdx
              (g.playDirection * a.targetPlayerOffset.getD 1) < g.numPlayers :=
            playerIdxAtOffset_lt g pIdx _ h0
          have hdraw := conserves_playerDrawsCard rand g
            (g.playerIdxAtOffset pIdx (g.playDirection * a.targetPlayerOffset.getD 1))
            n.toNat hlen hvic
          rcases hd : playerDrawsCard rand g
              (g.playerIdxAtOffset pIdx
                (g.playDirection * a.targetPlayerOffset.getD 1)) n.toNat with ⟨dc, g'⟩
          rw [hd] at hdraw
          dsimp only at hdraw ⊢
          exact hdraw.trans
            (ih rest g' pIdx played s adv (by rw [hdraw.2]; exact hp))
        · exact Conserves.refl g
        · exact Conserves.refl g
    rw [if_neg h3]
    by_cases h4 : (a.type == ActionType.skipPlayer) = true
    · rw [if_pos h4]
      exact ih rest g pIdx played true adv hp
    rw [if_neg h4]
    by_cases h5 : (a.type == ActionType.reverseDirection) = true
    · rw [if_pos h5]
      exact (Conserves.refl _).trans
        (ih rest { g with playDirection := -g.playDirection } pIdx played s adv hp)
    rw [if_neg h5]
    by_cases h6 : (a.type == ActionType.swapCardRight || a.type == ActionType.swapCardAny ||
        a.type == ActionType.discardFromPlayerHand ||
        a.type == ActionType.playAnyAndDrawOne) = true
    · rw [if_pos h6]
      exact ⟨rfl, rfl⟩
    rw [if_neg h6]
    by_cases h7 : (a.type == ActionType.playerDrawsFourUnlessLast) = true
    · rw [if_pos h7]
      by_cases hh : (g.getP pIdx).handSize > 0
      · rw [if_pos hh]
        dsimp only
        have hdraw := conserves_playerDrawsCard rand g pIdx 4 hlen hp
        rcases hd : playerDrawsCard rand g pIdx 4 with ⟨dc, g'⟩
        rw [hd] at hdraw
        dsimp only at hdraw ⊢
        exact hdraw.trans (ih rest g' pIdx played s adv (by rw [hdraw.2]; exact hp))
      · rw [if_neg hh]
        exact ih rest g pIdx played s adv hp
    rw [if_neg h7]
    by_cases h8 : (a.type == ActionType.takeRandomFromPrevious) = true
    · rw [if_pos h8]
      dsimp only
      have hprev : g.playerIdxAtOffset pIdx (-g.playDirection) < g.numPlayers :=
        playerIdxAtOffset_lt g pIdx _ h0
      set prevIdx := g.playerIdxAtOffset pIdx (-g.playDirection) with hprevIdx
      by_cases hne : ¬(g.getP prevIdx).isHandEmpty = true
      · rw [if_pos hne]
        rcases hpc : (g.getP prevIdx).playCard
            ((rand.randNat 0 ((g.getP prevIdx).handSize - 1) : Nat) : Int)
            with _ | ⟨c, prev'⟩
        · exact ih rest g pIdx played s adv hp
        · dsimp only
          have hpop := totalCards_setP_playCard hpc hprev
          have hp1 : pIdx < (g.setP prevIdx prev').players.length := by
            simpa [GameState.setP] using hp
          have hadd := totalCards_setP_addCard (g.setP prevIdx prev') pIdx c hp1
          set g2 := (g.setP prevIdx prev').setP pIdx
            (((g.setP prevIdx prev').getP pIdx).addCardToHand c) with hg2
          have hcons : Conserves g g2 := by
            refine ⟨by omega, ?_⟩
            simp [hg2, GameState.setP]
          exact hcons.trans
            (ih rest g2 pIdx played s adv (by rw [hcons.2]; exact hp))
      · rw [if_neg hne]
        exact ih rest g pIdx played s adv hp
    rw [if_neg h8]
    by_cases h9 : (a.type == ActionType.placeTopDrawPileCard) = true
    · rw [if_pos h9]
      dsimp only
      have hhd := conserves_handleDrawPileEmpty rand g pIdx hlen hp
      rcases hh : handleDrawPileEmpty rand g pIdx with ⟨can, g1⟩
      rw [hh] at hhd
      dsimp only at hhd ⊢
      by_cases hcan : ¬can = true
      · rw [if_pos hcan]
        exact hhd.trans (ih rest g1 pIdx played s adv (by rw [hhd.2]; exact hp))
      · rw [if_neg hcan]
        rcases hdc : g1.deck.drawCard with _ | ⟨c, deck'⟩
        · exact hhd.trans (ih rest g1 pIdx played s adv (by rw [hhd.2]; exact hp))
        · dsimp only
          obtain ⟨hdlen, hddisc⟩ := Deck.drawCard_some hdc
          set g2 : GameState := { g1 with deck := deck'.addToDiscard c } with hg2
          have hcons2 : Conserves g1 g2 := by
            constructor
            · simp only [totalCards, hg2, Deck.addToDiscard, List.length_append,
                List.length_cons, List.length_nil, hddisc]
              omega
            · simp [hg2]
          set g3 := if ¬c.isWild = true then
              { g2 with currentWildColor := none } else g2 with hg3
          have hcons3 : Conserves g2 g3 := by
            rcases hg3w : (¬c.isWild = true : Prop) with _
            by_cases hw : ¬c.isWild = true
            · simp only [hg3, if_pos hw]
              exact ⟨rfl, rfl⟩
            · simp only [hg3, if_neg hw]
              exact Conserves.refl g2
          have hcons := (hhd.trans hcons2).trans hcons3
          exact hcons.trans
            (ih _ g3 pIdx played s _ (by rw [hcons.2]; exact hp))
    rw [if_neg h9]
    exact ih rest g pIdx played s adv hp

theorem conserves_fold_addCards (cards : List Card) (g : GameState) (v : Nat)
    (hv : v < g.players.length) :
    totalCards (cards.foldl
        (fun acc c => acc.setP v ((acc.getP v).addCardToHand c)) g) =
      totalCards g + cards.length ∧
    (cards.foldl (fun acc c => acc.setP v ((acc.getP v).addCardToHand c))
        g).players.length = g.players.length := by
  induction cards generalizing g with
  | nil => simp
  | cons c cs ih =>
    simp only [List.foldl_cons, List.length_cons]
    have hadd := totalCards_setP_addCard g v c hv
    have hv' : v < (g.setP v ((g.getP v).addCardToHand c)).players.length := by
      simpa [GameState.setP] using hv
    have := ih (g.setP v ((g.getP v).addCardToHand c)) hv'
    constructor
    · omega
    · rw [this.2]
      simp [GameState.setP]

theorem conserves_fold_addToDiscard (cards : List Card) (g : GameState) :
    totalCards (cards.foldl
        (fun acc c => { acc with deck := acc.deck.addToDiscard c }) g) =
      totalCards g + cards.length ∧
    (cards.foldl (fun acc c => { acc with deck := acc.deck.addToDiscard c })
        g).players.length = g.players.length := by
  induction cards generalizing g with
  | nil => simp
  | cons c cs ih =>
    simp only [List.foldl_cons, List.length_cons]
    have := ih ({ g with deck := g.deck.addToDiscard c })
    have htc : totalCards { g with deck := g.deck.addToDiscard c } = totalCards g + 1 := by
      simp only [totalCards, Deck.addToDiscard, List.length_append, List.length_cons,
        List.length_nil]
      omega
    constructor
    · omega
    · rw [this.2]

theorem awardColorCounters_cardCount (p : Player) (c : Card) :
    (awardColorCounters p c).cardCount = p.cardCount := by
  unfold awardColorCounters
  repeat' split
  all_goals rfl

theorem conserves_finishTurn (g : GameState) (exit : LoopExit) :
    Conserves g (finishTurn g exit).2 := by
  unfold finishTurn
  rcases exit with ⟨s, nxt⟩ | m | ⟨sf, adv, nn⟩
  · exact Conserves.refl g
  · exact Conserves.refl g
  · dsimp only
    repeat' split
    all_goals exact ⟨rfl, rfl⟩

theorem conserves_resolveSwapCardRight (g : GameState) (pIdx origIdx : Nat)
    (ai : Option ActionInput) (hp : pIdx < g.players.length) :
    Conserves g (resolveSwapCardRight g pIdx origIdx ai).2 := by
  have h0 : 0 < g.players.length := by omega
  have hr : g.playerIdxAtOffset origIdx g.playDirection < g.numPlayers :=
    playerIdxAtOffset_lt g origIdx _ h0
  unfold resolveSwapCardRight
  split
  · exact Conserves.refl g
  · dsimp only
    split
    · exact Conserves.refl g
    · exact Conserves.refl g
    · split
      · exact Conserves.refl g
      · split
        · exact conserves_finishPendingFrom g origIdx
        · split
          · exact Conserves.refl g
          · exact (conserves_swapExchange g pIdx _ _ _ hp hr).trans
              (conserves_finishPendingFrom _ origIdx)

theorem conserves_resolveSwapCardAny (g : GameState) (pIdx origIdx : Nat)
    (ai : Option ActionInput) (hp : pIdx < g.players.length) :
    Conserves g (resolveSwapCardAny g pIdx origIdx ai).2 := by
  unfold resolveSwapCardAny
  split
  · exact Conserves.refl g
  · split
    · -- stage 1
      split
      · exact Conserves.refl g
      · split
        · exact Conserves.refl g
        · exact ⟨rfl, rfl⟩
    · -- stage 2
      next targetIdx heq =>
        split
        · next htlt =>
          dsimp only
          split
          · exact Conserves.refl g
          · exact Conserves.refl g
          · split
            · exact Conserves.refl g
            · split
              · exact conserves_finishPendingFrom g origIdx
              · split
                · exact Conserves.refl g
                · exact (conserves_swapExchange g pIdx targetIdx _ _ hp htlt).trans
                    (conserves_finishPendingFrom _ origIdx)
        · exact Conserves.refl g

theorem conserves_resolveDiscardFromPlayerHand (g : GameState) (pIdx : Nat)
    (ai : Option ActionInput) :
    Conserves g (resolveDiscardFromPlayerHand g pIdx ai).2 := by
  unfold resolveDiscardFromPlayerHand
  split
  · exact Conserves.refl g
  · exact Conserves.refl g
  · next chooserIdx victimIdx hch hvi =>
    split
    · next hbounds =>
      split
      · exact Conserves.refl g
      · dsimp only
        split
        · exact Conserves.refl g
        · have hv : victimIdx < g.players.length := hbounds.2
          have hloop := conserves_discardPopLoop g victimIdx []
            (((inputGet ai fun x => x.chosenIndicesFromVictim).getD []).insertionSort
              fun a b => b ≤ a) hv
          rcases hlp : discardPopLoop g victimIdx []
              (((inputGet ai fun x => x.chosenIndicesFromVictim).getD []).insertionSort
                fun a b => b ≤ a) with ⟨valid, removed, g1⟩
          rw [hlp] at hloop
          dsimp only at hloop ⊢
          have hv1 : victimIdx < g1.players.length := by
            rw [hloop.2]
            exact hv
          split
          · -- invalid: rollback by re-appending
            dsimp only
            have hfold := conserves_fold_addCards removed g1 victimIdx hv1
            simp only [List.length_nil] at hloop
            exact ⟨by omega, by rw [hfold.2, hloop.2]⟩
          · -- success: removed cards to the discard pile, pending cleared
            dsimp only
            have hfold := conserves_fold_addToDiscard removed g1
            have hfin := conserves_finishPendingFrom
              (removed.foldl (fun acc c => { acc with deck := acc.deck.addToDiscard c }) g1)
              victimIdx
            simp only [List.length_nil] at hloop
            exact ⟨by have h1 := hfin.1; omega, by rw [hfin.2, hfold.2, hloop.2]⟩
    · exact Conserves.refl g

theorem conserves_resolveRank6Play (rand : Rand) (hlen : rand.LenPres)
    (g3 : GameState) (origIdx : Nat) (played : Card) (activeColor : Option Color)
    (ho : origIdx < g3.players.length) :
    Conserves g3 (resolveRank6Play rand g3 origIdx played activeColor).2 := by
  unfold resolveRank6Play
  dsimp only
  set g4 := g3.setP origIdx (awardColorCounters (g3.getP origIdx) played) with hg4
  have hcons4 : Conserves g3 g4 := by
    constructor
    · exact totalCards_setP_sameCount g3 origIdx _ ho
        (awardColorCounters_cardCount (g3.getP origIdx) played)
    · simp [hg4, GameState.setP]
  have ho4 : origIdx < g4.players.length := by
    rw [hcons4.2]
    exact ho
  have h04 : 0 < g4.players.length := by omega
  set acts := (if (g4.getP origIdx).isHandEmpty ∧
      ¬(getCardActions g4 played origIdx activeColor).any
        (fun a => a.type == ActionType.gameWin) = true then
      [({ type := .gameWin } : GameAction)]
    else getCardActions g4 played origIdx activeColor) with hacts
  rcases hl : subEffectsLoop rand g4 origIdx false acts with ⟨g5, skipf⟩ | ⟨m, g5⟩
  · have hloop := conserves_subEffectsLoop rand hlen acts g4 origIdx false h04
    rw [hl] at hloop
    simp only [loopStateOf] at hloop
    have hcons5 : Conserves g3 g5 := hcons4.trans hloop
    dsimp only
    split
    · exact hcons5
    · dsimp only
      have ho5 : origIdx < g5.players.length := by
        rw [hcons5.2]
        exact ho
      have hdraw := conserves_playerDrawsCard rand g5 origIdx 1 hlen ho5
      rcases hd : playerDrawsCard rand g5 origIdx 1 with ⟨dc, g6⟩
      rw [hd] at hdraw
      dsimp only at hdraw
      have hcons6 : Conserves g3 g6 := hcons5.trans hdraw
      split
      · exact hcons6.trans ⟨rfl, rfl⟩
      · exact hcons6.trans ⟨rfl, rfl⟩
  · have hloop := conserves_subEffectsLoop rand hlen acts g4 origIdx false h04
    rw [hl] at hloop
    simp only [loopStateOf] at hloop
    exact hcons4.trans hloop

theorem conserves_resolvePlayAnyAndDrawOne (rand : Rand) (hlen : rand.LenPres)
    (g : GameState) (pIdx origIdx : Nat) (ci? : Option Int) (ai : Option ActionInput)
    (ho : origIdx < g.players.length) :
    Conserves g (resolvePlayAnyAndDrawOne rand g pIdx origIdx ci? ai).2 := by
  unfold resolvePlayAnyAndDrawOne
  split
  · exact Conserves.refl g
  · dsimp only
    split
    · exact Conserves.refl g
    · next ci =>
      split
      · exact Conserves.refl g
      · try dsimp only
        split
        · exact ⟨rfl, rfl⟩
        · rcases hplay : (g.getP origIdx).playCard ci with _ | ⟨played, p6'⟩
          · exact Conserves.refl g
          · dsimp only
            have hpd := conserves_pop_then_discard hplay ho
            have ho2 : origIdx <
                ({ g.setP origIdx p6' with
                  deck := (g.setP origIdx p6').deck.addToDiscard played } :
                    GameState).players.length := by
              rw [hpd.2]
              exact ho
            by_cases hw : played.isWild = true
            · simp only [hw, if_true]
              rcases hcol : inputGet ai (fun x => x.chosenColorForRank6Wild)
                  with _ | col
              · exact hpd
              · exact hpd.trans
                  (conserves_resolveRank6Play rand hlen _ origIdx played (some col)
                    (by simpa using ho2))
            · simp only [hw, Bool.false_eq_true, if_false]
              exact hpd.trans
                (conserves_resolveRank6Play rand hlen _ origIdx played
                  (some played.color) (by simpa using ho2))

theorem conserves_resolveChooseColor (rand : Rand) (hlen : rand.LenPres)
    (g : GameState) (pIdx : Nat) (ai : Option ActionInput)
    (h0 : 0 < g.players.length) :
    Conserves g (resolveChooseColor rand g pIdx ai).2 := by
  unfold resolveChooseColor
  split
  · exact Conserves.refl g
  · next chosenColor hcc =>
    split
    · exact Conserves.refl g
    · split
      · -- Rank 6 wild color sub-case
        split
        · exact Conserves.refl g
        · next rank6CardIdx heq =>
          dsimp only
          split
          · exact Conserves.refl g
          · next uidx huidx =>
            split
            · next hult =>
              split
              · exact ⟨rfl, rfl⟩
              · refine (Conserves.trans ⟨rfl, rfl⟩ ?_ : Conserves g _)
                exact conserves_resolvePlayAnyAndDrawOne rand hlen _ uidx uidx
                  (some rank6CardIdx) (some { chosenColorForRank6Wild := some chosenColor })
                  (by simpa using hult)
            · exact Conserves.refl g
      · -- standard wild color choice
        dsimp only
        split
        · split
          · exact Conserves.refl g
          · split
            · exact Conserves.refl g
            · split
              · exact Conserves.refl g
              · try dsimp only
                set g2 : GameState := { g with
                  currentWildColor := some chosenColor,
                  pendingAction := none, actionData := ActionData.empty } with hg2
                have h02 : 0 < g2.players.length := h0
                have hloop := conserves_remainingActionsLoop rand hlen
                  (g.actionData.remainingActions.getD []) g2
                  (g.actionData.playerIdx.getD pIdx) false h02
                rcases hl : remainingActionsLoop rand g2
                    (g.actionData.playerIdx.getD pIdx) false
                    (g.actionData.remainingActions.getD []) with ⟨g3, skipf⟩ | ⟨m, g3⟩
                · rw [hl] at hloop
                  simp only [loopStateOf] at hloop
                  have hcons : Conserves g g3 := Conserves.trans ⟨rfl, rfl⟩ hloop
                  dsimp only
                  split
                  · exact hcons.trans ⟨rfl, rfl⟩
                  · exact hcons.trans ⟨rfl, rfl⟩
                · rw [hl] at hloop
                  simp only [loopStateOf] at hloop
                  exact Conserves.trans ⟨rfl, rfl⟩ hloop
        · exact Conserves.refl g

theorem conserves_normalPlayAfterDup (rand : Rand) (hlen : rand.LenPres)
    (g3 : GameState) (pIdx : Nat) (played : Card) (ccfw : Option Color)
    (hp3 : pIdx < g3.players.length) :
    Conserves g3 (normalPlayAfterDup rand g3 pIdx played ccfw).2 := by
  unfold normalPlayAfterDup
  dsimp only
  have hcons4 : Conserves g3 (if ¬played.isWild = true then
      { g3 with currentWildColor := none } else g3) := by
    by_cases hW : ¬played.isWild = true
    · rw [if_pos hW]
      exact ⟨rfl, rfl⟩
    · rw [if_neg hW]
      exact Conserves.refl g3
  set g4 := if ¬played.isWild = true then
      { g3 with currentWildColor := none } else g3 with hg4
  have hp4 : pIdx < g4.players.length := by
    rw [hcons4.2]
    exact hp3
  have hcons5 : Conserves g3
      (g4.setP pIdx (awardColorCounters (g4.getP pIdx) played)) := by
    refine hcons4.trans ⟨?_, ?_⟩
    · exact totalCards_setP_sameCount g4 pIdx _ hp4
        (awardColorCounters_cardCount (g4.getP pIdx) played)
    · simp [GameState.setP]
  set g5 := g4.setP pIdx (awardColorCounters (g4.getP pIdx) played) with hg5
  have hp5 : pIdx < g5.players.length := by
    rw [hcons5.2]
    exact hp3
  set acts := (if (g5.getP pIdx).isHandEmpty ∧
      ¬(getCardActions g5 played pIdx
          (if played.isWild = true then ccfw else none)).any
        (fun a => a.type == ActionType.gameWin) = true then
      [({ type := .gameWin } : GameAction)]
    else getCardActions g5 played pIdx
      (if played.isWild = true then ccfw else none)) with hacts
  have hpa := conserves_processActions rand hlen
    (playTurnFuel g5 + acts.length) acts g5 pIdx played false true hp5
  rcases hpr : processActions rand (playTurnFuel g5 + acts.length)
      g5 pIdx played false true acts with ⟨exit, g6⟩
  rw [hpr] at hpa
  dsimp only at hpa
  exact (hcons5.trans hpa).trans (conserves_finishTurn g6 exit)

theorem conserves_normalPlay (rand : Rand) (hlen : rand.LenPres) (g : GameState)
    (pIdx : Nat) (cardIndex : Option Int) (ccfw : Option Color)
    (hp : pIdx < g.players.length) :
    Conserves g (normalPlay rand g pIdx cardIndex ccfw).2 := by
  unfold normalPlay
  split
  · exact Conserves.refl g
  · next ci =>
    split
    · exact Conserves.refl g
    · try dsimp only
      split
      · exact Conserves.refl g
      · next top htop =>
        split
        · exact Conserves.refl g
        · exact Conserves.refl g
        · rcases hplay : (g.getP pIdx).playCard ci with _ | ⟨played, p'⟩
          · exact Conserves.refl g
          · dsimp only
            have hpd := conserves_pop_then_discard hplay hp
            have hp2 : pIdx < ({ g.setP pIdx p' with
                deck := (g.setP pIdx p').deck.addToDiscard played } :
                  GameState).players.length := by
              rw [hpd.2]
              exact hp
            have hdup := conserves_duplicateStep _ pIdx played
              (g.setP pIdx p').deck.getTopDiscardCard hp2
            rcases hd : duplicateStep
                ({ g.setP pIdx p' with
                  deck := (g.setP pIdx p').deck.addToDiscard played } : GameState)
                pIdx played (g.setP pIdx p').deck.getTopDiscardCard with ⟨g3, earlyWin⟩
            rw [hd] at hdup
            dsimp only at hdup ⊢
            have hcons3 : Conserves g g3 := hpd.trans hdup
            cases earlyWin with
            | true =>
              rw [if_pos rfl]
              exact hcons3
            | false =>
              rw [if_neg (by simp)]
              have hp3 : pIdx < g3.players.length := by
                rw [hcons3.2]
                exact hp
              exact hcons3.trans
                (conserves_normalPlayAfterDup rand hlen g3 pIdx played ccfw hp3)

theorem conserves_playTurn (rand : Rand) (hlen : rand.LenPres) (g : GameState)
    (pIdx : Nat) (cardIndex : Option Int) (ai : Option ActionInput)
    (ccfw : Option Color) (hp : pIdx < g.players.length) :
    Conserves g (playTurn rand g pIdx cardIndex ai ccfw).2 := by
  unfold playTurn
  split
  · split
    · exact Conserves.refl g
    · split
      · exact Conserves.refl g
      · split
        · next pa hpa =>
          split
          · dsimp only
            split
            · exact conserves_resolveSwapCardRight g pIdx _ ai hp
            · exact Conserves.refl g
          · dsimp only
            split
            · exact conserves_resolveSwapCardAny g pIdx _ ai hp
            · exact Conserves.refl g
          · dsimp only
            split
            · exact conserves_resolveDiscardFromPlayerHand g pIdx ai
            · exact Conserves.refl g
          · dsimp only
            split
            · next horig =>
              exact conserves_resolvePlayAnyAndDrawOne rand hlen g pIdx _
                cardIndex ai horig
            · exact Conserves.refl g
          · dsimp only
            split
            · exact conserves_resolveChooseColor rand hlen g pIdx ai (by omega)
            · exact Conserves.refl g
          · dsimp only
            split
            · exact conserves_normalPlay rand hlen g pIdx cardIndex ccfw hp
            · exact Conserves.refl g
        · exact conserves_normalPlay rand hlen g pIdx cardIndex ccfw hp
  · exact Conserves.refl g

theorem playerDrawsCard_one_mem (rand : Rand) (g : GameState) (pIdx : Nat)
    {c : Card} {rest : List Card} {g' : GameState}
    (h : playerDrawsCard rand g pIdx 1 = (c :: rest, g'))
    (hp : pIdx < g.players.length) : c ∈ (g'.getP pIdx).hand := by
  unfold playerDrawsCard at h
  rcases hhd : handleDrawPileEmpty rand g pIdx with ⟨can, g1⟩
  rw [hhd] at h
  have hpl := players_length_handleDrawPileEmpty rand g pIdx
  rw [hhd] at hpl
  dsimp only at h hpl
  cases can with
  | false => simp at h
  | true =>
    simp only [Bool.not_true, Bool.false_eq_true, if_false] at h
    rcases hdc : g1.deck.drawCard with _ | ⟨c0, deck'⟩ <;> rw [hdc] at h
    · simp at h
    · dsimp only [playerDrawsCard] at h
      rw [Prod.mk.injEq, List.cons.injEq] at h
      obtain ⟨⟨hc0, -⟩, hg'⟩ := h
      subst hc0
      subst hg'
      have hp2 : pIdx < ({ g1 with deck := deck' } : GameState).players.length := by
        dsimp only
        omega
      rw [getP_setP_self _ _ _ hp2]
      simp [Player.addCardToHand]

theorem conserves_playJailCard (g : GameState) (pIdx : Nat) (y4 : Card)
    (hp : pIdx < g.players.length)
    (hy4 : (g.getP pIdx).getOutOfJailYellow4 = some y4) :
    Conserves g (playJailCard g pIdx y4) := by
  unfold playJailCard
  dsimp only
  have hcount : ({ g.getP pIdx with getOutOfJailYellow4 := none } :
      Player).cardCount + 1 = (g.getP pIdx).cardCount := by
    simp [Player.cardCount, hy4]
  have hset := totalCards_setP g pIdx
    { g.getP pIdx with getOutOfJailYellow4 := none } hp
  set g1 := g.setP pIdx { g.getP pIdx with getOutOfJailYellow4 := none } with hg1
  have hpl1 : g1.players.length = g.players.length := by
    simp [hg1, GameState.setP]
  have hp1 : pIdx < g1.players.length := by omega
  have htc1 : totalCards g1 + 1 = totalCards g := by omega
  set g2 : GameState := { g1 with deck := g1.deck.addToDiscard y4 } with hg2
  have hcons2 : Conserves g g2 := by
    constructor
    · have htc2 : totalCards g2 = totalCards g1 + 1 := by
        simp only [hg2, totalCards, Deck.addToDiscard, List.length_append,
          List.length_cons, List.length_nil]
        omega
      omega
    · rw [hg2]
      exact hpl1
  set g3 := if ¬y4.isWild then ({ g2 with currentWildColor := none } : GameState) else g2
    with hg3
  have hcons3 : Conserves g g3 := by
    rw [hg3]
    split
    · exact hcons2.trans ⟨rfl, rfl⟩
    · exact hcons2
  have hp3 : pIdx < g3.players.length := by
    rw [hcons3.2]
    exact hp
  refine hcons3.trans ⟨?_, ?_⟩
  · exact totalCards_setP_sameCount g3 pIdx _ hp3
      (awardColorCounters_cardCount (g3.getP pIdx) y4)
  · simp [GameState.setP]

theorem conserves_playerCannotPlayAction (rand : Rand) (hlen : rand.LenPres)
    (g : GameState) (pIdx : Nat) (hp : pIdx < g.players.length) :
    Conserves g (playerCannotPlayAction rand g pIdx).2 := by
  have h0 : 0 < g.players.length := by omega
  unfold playerCannotPlayAction
  split
  · split
    · exact Conserves.refl g
    · split
      · exact Conserves.refl g
      · try dsimp only
        split
        · -- pending gate fired: every gate result carries the unchanged state
          next r hr =>
          have hr2 : r.2 = g := by
            revert hr
            split
            · intro hr
              cases hr
            · split
              · split
                · intro hr
                  cases hr
                  rfl
                · split
                  · intro hr
                    cases hr
                    rfl
                  · intro hr
                    cases hr
              · intro hr
                cases hr
                rfl
          rw [hr2]
          exact Conserves.refl g
        · -- gate passed: jail card?
          split
          · -- a raising jail comparison carries the untouched state
            exact Conserves.refl g
          · -- the stored Yellow 4 is played
            next r hjail =>
            revert hjail
            split
            · intro hjail
              cases hjail
            · next y4 hy4 =>
              split
              · intro hjail
                cases hjail
              · next top htop =>
                split
                · intro hjail
                  cases hjail
                · intro hjail
                  cases hjail
                · next hmt =>
                  split
                  · intro hjail
                    cases hjail
                    exact (conserves_playJailCard g pIdx y4 hp hy4).trans ⟨rfl, rfl⟩
                  · intro hjail
                    cases hjail
                    exact (conserves_playJailCard g pIdx y4 hp hy4).trans ⟨rfl, rfl⟩
          · -- no playable jail card: draw one
            have hdraw := conserves_playerDrawsCard rand g pIdx 1 hlen hp
            rcases hd : playerDrawsCard rand g pIdx 1 with ⟨drawn, g1⟩
            rw [hd] at hdraw
            dsimp only at hdraw ⊢
            have hp1 : pIdx < g1.players.length := by
              rw [hdraw.2]
              exact hp
            rcases drawn with _ | ⟨drawnCard, drest⟩
            · exact hdraw.trans ⟨rfl, rfl⟩
            · dsimp only
              split
              · exact hdraw.trans ⟨rfl, rfl⟩
              · next top htop =>
                split
                · exact hdraw
                · exact hdraw.trans ⟨rfl, rfl⟩
                · -- auto-play of the drawn card
                    have hmem := playerDrawsCard_one_mem rand g pIdx hd hp
                    have hcount : ((g1.getP pIdx).removeCardFromHand
                        drawnCard).cardCount + 1 = (g1.getP pIdx).cardCount := by
                      simp only [Player.cardCount, Player.removeCardFromHand]
                      have := List.length_erase_of_mem hmem
                      have hpos : 0 < (g1.getP pIdx).hand.length :=
                        List.length_pos.mpr (List.ne_nil_of_mem hmem)
                      omega
                    have hset := totalCards_setP g1 pIdx
                      ((g1.getP pIdx).removeCardFromHand drawnCard) hp1
                    set g2 := g1.setP pIdx ((g1.getP pIdx).removeCardFromHand drawnCard)
                      with hg2
                    have hpl2 : g2.players.length = g1.players.length := by
                      simp [hg2, GameState.setP]
                    have hcons3 : Conserves g1 { g2 with deck := g2.deck.addToDiscard drawnCard } := by
                      constructor
                      · have htc3 : totalCards { g2 with deck := g2.deck.addToDiscard drawnCard } =
                            totalCards g2 + 1 := by
                          simp only [totalCards, Deck.addToDiscard, List.length_append,
                            List.length_cons, List.length_nil]
                          omega
                        omega
                      · exact hpl2
                    set g3 : GameState := { g2 with deck := g2.deck.addToDiscard drawnCard }
                      with hg3
                    have hcons3' : Conserves g g3 := hdraw.trans hcons3
                    have hp3 : pIdx < g3.players.length := by
                      rw [hcons3'.2]
                      exact hp
                    by_cases hwld : drawnCard.isWild = true
                    · rw [if_pos hwld]
                      dsimp only
                      -- drawn wild: a color is chosen at random
                      set g4 : GameState := { g3 with currentWildColor := some rand.randColor }
                        with hg4
                      have hcons4 : Conserves g g4 := hcons3'.trans ⟨rfl, rfl⟩
                      have hp4 : pIdx < g4.players.length := by
                        rw [hcons4.2]
                        exact hp
                      have hcons5 : Conserves g
                          (g4.setP pIdx (awardColorCounters (g4.getP pIdx) drawnCard)) := by
                        refine hcons4.trans ⟨?_, ?_⟩
                        · exact totalCards_setP_sameCount g4 pIdx _ hp4
                            (awardColorCounters_cardCount (g4.getP pIdx) drawnCard)
                        · simp [GameState.setP]
                      set g5 := g4.setP pIdx (awardColorCounters (g4.getP pIdx) drawnCard)
                        with hg5
                      have hp5 : pIdx < g5.players.length := by
                        rw [hcons5.2]
                        exact hp
                      have h05 : 0 < g5.players.length := by omega
                      split
                      · exact hcons5.trans ⟨rfl, rfl⟩
                      · rcases hl : subEffectsLoop rand g5 pIdx false
                            (getCardActions g5 drawnCard pIdx (some rand.randColor))
                            with ⟨g6, skipf⟩ | ⟨m, g6⟩
                        · have hloop := conserves_subEffectsLoop rand hlen
                            (getCardActions g5 drawnCard pIdx (some rand.randColor))
                            g5 pIdx false h05
                          rw [hl] at hloop
                          simp only [loopStateOf] at hloop
                          have hcons6 : Conserves g g6 := hcons5.trans hloop
                          dsimp only
                          split
                          · exact hcons6
                          · split
                            · exact hcons6.trans ⟨rfl, rfl⟩
                            · exact hcons6.trans ⟨rfl, rfl⟩
                        · have hloop := conserves_subEffectsLoop rand hlen
                            (getCardActions g5 drawnCard pIdx (some rand.randColor))
                            g5 pIdx false h05
                          rw [hl] at hloop
                          simp only [loopStateOf] at hloop
                          exact hcons5.trans hloop
                    · rw [if_neg hwld]
                      dsimp only
                      -- drawn non-wild
                      set g4 : GameState := { g3 with currentWildColor := none }
                        with hg4
                      have hcons4 : Conserves g g4 := hcons3'.trans ⟨rfl, rfl⟩
                      have hp4 : pIdx < g4.players.length := by
                        rw [hcons4.2]
                        exact hp
                      have hcons5 : Conserves g
                          (g4.setP pIdx (awardColorCounters (g4.getP pIdx) drawnCard)) := by
                        refine hcons4.trans ⟨?_, ?_⟩
                        · exact totalCards_setP_sameCount g4 pIdx _ hp4
                            (awardColorCounters_cardCount (g4.getP pIdx) drawnCard)
                        · simp [GameState.setP]
                      set g5 := g4.setP pIdx (awardColorCounters (g4.getP pIdx) drawnCard)
                        with hg5
                      have hp5 : pIdx < g5.players.length := by
                        rw [hcons5.2]
                        exact hp
                      have h05 : 0 < g5.players.length := by omega
                      split
                      · exact hcons5.trans ⟨rfl, rfl⟩
                      · rcases hl : subEffectsLoop rand g5 pIdx false
                            (getCardActions g5 drawnCard pIdx none)
                            with ⟨g6, skipf⟩ | ⟨m, g6⟩
                        · have hloop := conserves_subEffectsLoop rand hlen
                            (getCardActions g5 drawnCard pIdx none) g5 pIdx false h05
                          rw [hl] at hloop
                          simp only [loopStateOf] at hloop
                          have hcons6 : Conserves g g6 := hcons5.trans hloop
                          dsimp only
                          split
                          · exact hcons6
                          · split
                            · exact hcons6.trans ⟨rfl, rfl⟩
                            · exact hcons6.trans ⟨rfl, rfl⟩
                        · have hloop := conserves_subEffectsLoop rand hlen
                            (getCardActions g5 drawnCard pIdx none) g5 pIdx false h05
                          rw [hl] at hloop
                          simp only [loopStateOf] at hloop
                          exact hcons5.trans hloop
  · exact Conserves.refl g

/-- **C1** (confirmed).  Card conservation: the standard deck has 108 cards,
and for every game state in which the draw pile + discard pile + all hands +
stored jail cards total 108, they still total 108 after any `play_turn` call
(normal play or pending-action resolution, with any inputs) and after any
`player_cannot_play_action` call.  The acting player is a member of the
player list and the shuffle oracle preserves length, as any permutation
does. -/
theorem card_conservation (rand : Rand) (g : GameState) (pIdx : Nat)
    (cardIndex : Option Int) (ai : Option ActionInput) (ccfw : Option Color)
    (hlen : rand.LenPres) (hp : pIdx < g.players.length)
    (h108 : totalCards g = 108) :
    createStandardDeck.length = 108 ∧
    totalCards (playTurn rand g pIdx cardIndex ai ccfw).2 = 108 ∧
    totalCards (playerCannotPlayAction rand g pIdx).2 = 108 := by
  refine ⟨by decide, ?_, ?_⟩
  · rw [(conserves_playTurn rand hlen g pIdx cardIndex ai ccfw hp).1, h108]
  · rw [(conserves_playerCannotPlayAction rand hlen g pIdx hp).1, h108]

/-- A concrete two-player state holding the full standard deck. -/
def c1State : GameState where
  deck := { cards := createStandardDeck, discardPile := [] }
  players := [Player.fresh "A", Player.fresh "B"]
  currentPlayerIndex := 0
  gameOver := false
  winner := none
  playDirection := 1
  currentWildColor := none
  pendingAction := none
  actionData := {}

/-- Witness for `card_conservation` at `c1State`. -/
theorem card_conservation_witness :
    totalCards (playTurn detRand c1State 0 none none none).2 = 108 ∧
    totalCards (playerCannotPlayAction detRand c1State 0).2 = 108 := by
  have h := card_conservation detRand c1State 0 none none none
    (fun l => rfl) (by decide) (by decide)
  exact ⟨h.2.1, h.2.2⟩

/-! ## Symbolic execution of the normal-play path -/

theorem Player.playCard_eq (p : Player) (ci : Nat) (h : ci < p.hand.length) :
    p.playCard (ci : Int) = some (p.hand.getD ci ⟨Color.red, Rank.zero⟩,
      { p with hand := p.hand.eraseIdx ci }) := by
  unfold Player.playCard
  rw [if_pos ⟨Int.natCast_nonneg ci, by exact_mod_cast h⟩]
  dsimp only
  rw [Int.toNat_natCast]
  rw [List.getElem?_eq_getElem h]
  rw [List.getD_eq_getElem p.hand _ h]

/-- Under the normal-play hypotheses (no pending action, the acting player's
turn, a valid index, a matching card), `play_turn` removes the card, pushes
it on the discard pile, runs the duplicate-rule step against the previous
top card, returns immediately on a duplicate win, and otherwise continues
with `normalPlayAfterDup`. -/
theorem playTurn_normal_routes (rand : Rand) (g : GameState) (pIdx ci : Nat)
    (ai : Option ActionInput) (ccfw : Option Color) (top : Card)
    (hpend : g.pendingAction = none) (hcur : g.currentPlayerIndex = pIdx)
    (hp : pIdx < g.players.length) (hover : g.gameOver = false)
    (hci : ci < (g.getP pIdx).hand.length)
    (htop : g.deck.getTopDiscardCard = some top)
    (hmatch : ((g.getP pIdx).hand.getD ci ⟨Color.red, Rank.zero⟩).matches top
      g.currentWildColor = .ok true) :
    playTurn rand g pIdx (some (ci : Int)) ai ccfw =
      (let played := (g.getP pIdx).hand.getD ci ⟨Color.red, Rank.zero⟩
       let g2 : GameState :=
         { g.setP pIdx { g.getP pIdx with hand := (g.getP pIdx).hand.eraseIdx ci } with
           deck := g.deck.addToDiscard played }
       let dup := duplicateStep g2 pIdx played (some top)
       if dup.2 then ((.result true none : PTOutcome), dup.1)
       else normalPlayAfterDup rand dup.1 pIdx played ccfw) := by
  have hplt : g.currentPlayerIndex < g.numPlayers := by
    rw [hcur]
    exact hp
  unfold playTurn
  rw [if_pos hplt, if_neg (by simp [hcur]), if_neg (by simp [hover]), hpend]
  dsimp only
  unfold normalPlay
  dsimp only
  have hbounds : ¬¬(0 ≤ (ci : Int) ∧ (ci : Int) < ((g.getP pIdx).handSize : Int)) := by
    refine not_not_intro ⟨Int.natCast_nonneg ci, ?_⟩
    exact_mod_cast hci
  rw [if_neg hbounds, htop]
  dsimp only
  rw [Int.toNat_natCast, hmatch]
  dsimp only
  rw [Player.playCard_eq (g.getP pIdx) ci hci]
  dsimp only
  have hdeck : (g.setP pIdx
      { g.getP pIdx with hand := (g.getP pIdx).hand.eraseIdx ci }).deck = g.deck := rfl
  rw [hdeck, htop]

/-! ## Claim C5: the duplicate rule -/

theorem duplicateStep_fires (g2 : GameState) (pIdx : Nat) (played top : Card)
    (hp2 : pIdx < g2.players.length)
    (hr : played.rank = top.rank) (hcol : played.color = top.color)
    (hw : played.isWild = false) :
    ((duplicateStep g2 pIdx played (some top)).1.getP pIdx).hand =
      (g2.getP pIdx).hand.filter (fun c => !(c.rank == Rank.two)) ∧
    (duplicateStep g2 pIdx played (some top)).1.deck.discardPile =
      g2.deck.discardPile ++ (g2.getP pIdx).hand.filter (fun c => c.rank == Rank.two) ∧
    ((duplicateStep g2 pIdx played (some top)).2 = true ↔
      (g2.getP pIdx).hand.filter (fun c => c.rank == Rank.two) ≠ [] ∧
        (g2.getP pIdx).hand.filter (fun c => !(c.rank == Rank.two)) = []) ∧
    ((duplicateStep g2 pIdx played (some top)).2 = true →
      (duplicateStep g2 pIdx played (some top)).1.gameOver = true ∧
        (duplicateStep g2 pIdx played (some top)).1.winner = some pIdx) := by
  unfold duplicateStep
  have hcnd : (played.rank == top.rank && played.color == top.color &&
      !played.isWild) = true := by
    simp [hr, hcol, hw]
  dsimp only
  rw [hcnd, if_pos rfl]
  by_cases hte : ((g2.getP pIdx).hand.filter (fun c => c.rank == Rank.two)).isEmpty = true
  · rw [if_pos hte]
    have htnil : (g2.getP pIdx).hand.filter (fun c => c.rank == Rank.two) = [] := by
      simpa [List.isEmpty_iff] using hte
    have hkeep : (g2.getP pIdx).hand.filter (fun c => !(c.rank == Rank.two)) =
        (g2.getP pIdx).hand := by
      rw [List.filter_eq_self]
      intro a ha
      have h2 := List.filter_eq_nil_iff.mp htnil a ha
      simp only [beq_iff_eq] at h2 ⊢
      simp [h2]
    refine ⟨by rw [hkeep], by simp [htnil], by simp [htnil], by simp⟩
  · rw [if_neg hte]
    rw [foldl_pair_erase_append]
    dsimp only
    rw [foldl_erase_filter]
    have htne : (g2.getP pIdx).hand.filter (fun c => c.rank == Rank.two) ≠ [] := by
      simpa [List.isEmpty_iff] using hte
    set keep := (g2.getP pIdx).hand.filter (fun c => !(c.rank == Rank.two)) with hkeep
    have hgetp : ∀ d : Deck,
        (({ g2.setP pIdx { g2.getP pIdx with hand := keep } with deck := d } :
          GameState).getP pIdx) = { g2.getP pIdx with hand := keep } := by
      intro d
      have h1 : (({ g2.setP pIdx { g2.getP pIdx with hand := keep } with deck := d } :
          GameState).getP pIdx) =
          ((g2.setP pIdx { g2.getP pIdx with hand := keep }).getP pIdx) := rfl
      rw [h1]
      exact getP_setP_self g2 pIdx _ hp2
    by_cases hke : ({ g2.getP pIdx with hand := keep } : Player).isHandEmpty = true
    · rw [if_pos (by rw [hgetp]; exact hke)]
      have hknil : keep = [] := by
        simpa [Player.isHandEmpty, List.isEmpty_iff] using hke
      refine ⟨?_, rfl, by simp [htne, hknil], by simp⟩
      · have : (({ g2.setP pIdx { g2.getP pIdx with hand := keep } with
            deck := { g2.deck with discardPile := g2.deck.discardPile ++
              (g2.getP pIdx).hand.filter (fun c => c.rank == Rank.two) } } :
              GameState).getP pIdx) = { g2.getP pIdx with hand := keep } := hgetp _
        simp only [GameState.getP] at this ⊢
        rw [this]
    · rw [if_neg (by rw [hgetp]; exact hke)]
      have hkne : keep ≠ [] := by
        simpa [Player.isHandEmpty, List.isEmpty_iff] using hke
      refine ⟨?_, rfl, by simp [hkne], by simp⟩
      · rw [hgetp]

/-- **C5** (confirmed).  The duplicate rule: in a normal play where the
played card is non-wild and equals (same color and rank) the card that was
on top of the discard pile, every Rank 2 card remaining in the player's hand
is moved, in that same `play_turn` call, to the discard pile (the hand keeps
exactly its non-Two cards, in order, and the discard pile gains the played
card followed by those Twos); the call ends the game with the player as
winner exactly when the hand emptied through this discard, and otherwise the
call continues from the post-duplicate state. -/
theorem duplicate_rule_discards_twos (rand : Rand) (g : GameState) (pIdx ci : Nat)
    (ai : Option ActionInput) (ccfw : Option Color) (top played : Card)
    (hpend : g.pendingAction = none) (hcur : g.currentPlayerIndex = pIdx)
    (hp : pIdx < g.players.length) (hover : g.gameOver = false)
    (hci : ci < (g.getP pIdx).hand.length)
    (htop : g.deck.getTopDiscardCard = some top)
    (hplayed : (g.getP pIdx).hand.getD ci ⟨Color.red, Rank.zero⟩ = played)
    (hmatch : played.matches top g.currentWildColor = .ok true)
    (hr : played.rank = top.rank) (hcol : played.color = top.color)
    (hw : played.isWild = false) :
    (((duplicateStep
        { g.setP pIdx { g.getP pIdx with hand := (g.getP pIdx).hand.eraseIdx ci } with
          deck := g.deck.addToDiscard played } pIdx played (some top)).1.getP pIdx).hand =
      ((g.getP pIdx).hand.eraseIdx ci).filter (fun c => !(c.rank == Rank.two))) ∧
    ((duplicateStep
        { g.setP pIdx { g.getP pIdx with hand := (g.getP pIdx).hand.eraseIdx ci } with
          deck := g.deck.addToDiscard played } pIdx played (some top)).1.deck.discardPile =
      g.deck.discardPile ++ [played] ++
        ((g.getP pIdx).hand.eraseIdx ci).filter (fun c => c.rank == Rank.two)) ∧
    ((duplicateStep
        { g.setP pIdx { g.getP pIdx with hand := (g.getP pIdx).hand.eraseIdx ci } with
          deck := g.deck.addToDiscard played } pIdx played (some top)).2 = true ↔
      ((g.getP pIdx).hand.eraseIdx ci).filter (fun c => c.rank == Rank.two) ≠ [] ∧
        ((g.getP pIdx).hand.eraseIdx ci).filter (fun c => !(c.rank == Rank.two)) = []) ∧
    ((duplicateStep
        { g.setP pIdx { g.getP pIdx with hand := (g.getP pIdx).hand.eraseIdx ci } with
          deck := g.deck.addToDiscard played } pIdx played (some top)).2 = true →
      (duplicateStep
        { g.setP pIdx { g.getP pIdx with hand := (g.getP pIdx).hand.eraseIdx ci } with
          deck := g.deck.addToDiscard played } pIdx played (some top)).1.gameOver = true ∧
      (duplicateStep
        { g.setP pIdx { g.getP pIdx with hand := (g.getP pIdx).hand.eraseIdx ci } with
          deck := g.deck.addToDiscard played } pIdx played (some top)).1.winner =
        some pIdx ∧
      playTurn rand g pIdx (some (ci : Int)) ai ccfw =
        (.result true none,
          (duplicateStep
            { g.setP pIdx { g.getP pIdx with hand := (g.getP pIdx).hand.eraseIdx ci } with
              deck := g.deck.addToDiscard played } pIdx played (some top)).1)) ∧
    ((duplicateStep
        { g.setP pIdx { g.getP pIdx with hand := (g.getP pIdx).hand.eraseIdx ci } with
          deck := g.deck.addToDiscard played } pIdx played (some top)).2 = false →
      playTurn rand g pIdx (some (ci : Int)) ai ccfw =
        normalPlayAfterDup rand
          (duplicateStep
            { g.setP pIdx { g.getP pIdx with hand := (g.getP pIdx).hand.eraseIdx ci } with
              deck := g.deck.addToDiscard played } pIdx played (some top)).1
          pIdx played ccfw) := by
  have hroute := playTurn_normal_routes rand g pIdx ci ai ccfw top hpend hcur hp hover
    hci htop (by rw [hplayed]; exact hmatch)
  rw [hplayed] at hroute
  set g2 : GameState :=
    { g.setP pIdx { g.getP pIdx with hand := (g.getP pIdx).hand.eraseIdx ci } with
      deck := g.deck.addToDiscard played } with hg2
  have hp2 : pIdx < g2.players.length := by
    simpa [hg2, GameState.setP] using hp
  have hfires := duplicateStep_fires g2 pIdx played top hp2 hr hcol hw
  have hhand : (g2.getP pIdx).hand = (g.getP pIdx).hand.eraseIdx ci := by
    have h1 : g2.getP pIdx =
        (g.setP pIdx { g.getP pIdx with hand := (g.getP pIdx).hand.eraseIdx ci }).getP
          pIdx := rfl
    rw [h1, getP_setP_self g pIdx _ hp]
  have hdisc : g2.deck.discardPile = g.deck.discardPile ++ [played] := rfl
  rw [hhand, hdisc] at hfires
  refine ⟨hfires.1, by rw [hfires.2.1, List.append_assoc], hfires.2.2.1, ?_, ?_⟩
  · intro htrue
    refine ⟨(hfires.2.2.2 htrue).1, (hfires.2.2.2 htrue).2, ?_⟩
    rw [hroute]
    simp only [htrue, if_true]
  · intro hfalse
    rw [hroute]
    simp only [hfalse, Bool.false_eq_true, if_false]

/-- A two-player state for exercising the duplicate rule: player 0 holds a
Red 5 (a duplicate of the discard top) and a Blue 2. -/
def c5State : GameState where
  deck := { cards := [], discardPile := [⟨Color.red, Rank.five⟩] }
  players :=
    [{ Player.fresh "A" with hand := [⟨Color.red, Rank.five⟩, ⟨Color.blue, Rank.two⟩] },
     { Player.fresh "B" with hand := [⟨Color.green, Rank.seven⟩] }]
  currentPlayerIndex := 0
  gameOver := false
  winner := none
  playDirection := 1
  currentWildColor := none
  pendingAction := none
  actionData := {}

/-- Witness for `duplicate_rule_discards_twos` at `c5State`. -/
theorem duplicate_rule_discards_twos_witness :
    ((duplicateStep
        { c5State.setP 0 { c5State.getP 0 with hand := (c5State.getP 0).hand.eraseIdx 0 } with
          deck := c5State.deck.addToDiscard ⟨Color.red, Rank.five⟩ } 0 ⟨Color.red, Rank.five⟩
        (some ⟨Color.red, Rank.five⟩)).1.getP 0).hand =
      ((c5State.getP 0).hand.eraseIdx 0).filter (fun c => !(c.rank == Rank.two)) :=
  (duplicate_rule_discards_twos detRand c5State 0 0 none none
    ⟨Color.red, Rank.five⟩ ⟨Color.red, Rank.five⟩ rfl rfl (by decide) rfl (by decide)
    rfl rfl rfl rfl rfl (by decide)).1

/-! ## Claim C6: two-player Reverse — step lemmas -/

theorem processActions_reverse (rand : Rand) (fuel : Nat) (g : GameState) (pIdx : Nat)
    (played : Card) (s adv : Bool) (rest : List GameAction) :
    processActions rand (fuel + 1) g pIdx played s adv
      (({ type := .reverseDirection } : GameAction) :: rest) =
    processActions rand fuel { g with playDirection := -g.playDirection } pIdx played
      s adv rest := rfl

theorem processActions_skip (rand : Rand) (fuel : Nat) (g : GameState) (pIdx : Nat)
    (played : Card) (s adv : Bool) (rest : List GameAction) (off : Option Int) :
    processActions rand (fuel + 1) g pIdx played s adv
      (({ type := .skipPlayer, targetPlayerOffset := off } : GameAction) :: rest) =
    processActions rand fuel g pIdx played true adv rest := rfl

theorem processActions_nil (rand : Rand) (fuel : Nat) (g : GameState) (pIdx : Nat)
    (played : Card) (s adv : Bool) :
    processActions rand (fuel + 1) g pIdx played s adv [] = (.done s adv none, g) := rfl

theorem awardColorCounters_hand (p : Player) (c : Card) :
    (awardColorCounters p c).hand = p.hand := by
  unfold awardColorCounters
  repeat' split
  all_goals rfl

theorem duplicateStep_no_win (g2 : GameState) (pIdx : Nat) (played : Card)
    (underneath : Option Card)
    (h : (duplicateStep g2 pIdx played underneath).2 = false) :
    (duplicateStep g2 pIdx played underneath).1.gameOver = g2.gameOver ∧
    (duplicateStep g2 pIdx played underneath).1.currentPlayerIndex =
      g2.currentPlayerIndex ∧
    (duplicateStep g2 pIdx played underneath).1.playDirection = g2.playDirection ∧
    (duplicateStep g2 pIdx played underneath).1.pendingAction = g2.pendingAction ∧
    (duplicateStep g2 pIdx played underneath).1.currentWildColor = g2.currentWildColor ∧
    (duplicateStep g2 pIdx played underneath).1.players.length = g2.players.length ∧
    (duplicateStep g2 pIdx played underneath).1.actionData = g2.actionData := by
  rcases underneath with _ | u
  · exact ⟨rfl, rfl, rfl, rfl, rfl, rfl, rfl⟩
  · unfold duplicateStep at h ⊢
    dsimp only at h ⊢
    by_cases hc : (played.rank == u.rank && played.color == u.color &&
        !played.isWild) = true
    · rw [if_pos hc] at h ⊢
      by_cases hte : ((g2.getP pIdx).hand.filter
          (fun c => c.rank == Rank.two)).isEmpty = true
      · rw [if_pos hte] at h ⊢
        exact ⟨rfl, rfl, rfl, rfl, rfl, rfl, rfl⟩
      · rw [if_neg hte] at h ⊢
        rw [foldl_pair_erase_append] at h ⊢
        dsimp only at h ⊢
        split at h
        · simp at h
        · next hke =>
          rw [if_neg hke]
          refine ⟨rfl, rfl, rfl, rfl, rfl, ?_, rfl⟩
          simp [GameState.setP]
    · rw [if_neg hc] at h ⊢
      exact ⟨rfl, rfl, rfl, rfl, rfl, rfl, rfl⟩

theorem getCardActions_reverse (g : GameState) (card : Card) (pIdx : Nat)
    (cc : Option Color) (hrank : card.rank = Rank.reverse)
    (h2 : g.numPlayers = 2) :
    getCardActions g card pIdx cc =
      [{ type := .reverseDirection },
       { type := .skipPlayer, targetPlayerOffset := some 0 }] := by
  rcases card with ⟨col, rank⟩
  cases hrank
  simp [getCardActions, Card.isWild, h2]

/-- The post-loop code of `play_turn` on a no-pending, advance-with-skip
exit: the turn marker advances twice. -/
theorem finishTurn_done_skip (g : GameState) (hgo : g.gameOver = false) :
    finishTurn g (.done true true none) =
      (.result true none, g.advanceTurnMarker.advanceTurnMarker) := by
  unfold finishTurn
  rw [hgo]
  simp

/-- **C6** (confirmed).  Two-player Reverse: in a 2-player game where the
current player legally plays a Reverse card (not an exact duplicate of the
top card, with at least one other card in hand so no win occurs), the play
direction is negated and the opponent is skipped: after the call the
current-player index is again the player who played the Reverse, and the
call succeeds with no pending input. -/
theorem two_player_reverse (rand : Rand) (g : GameState) (pIdx ci : Nat)
    (ai : Option ActionInput) (ccfw : Option Color) (top played : Card)
    (h2 : g.players.length = 2) (hp : pIdx < 2)
    (hd : g.playDirection = 1 ∨ g.playDirection = -1)
    (hpend : g.pendingAction = none) (hcur : g.currentPlayerIndex = pIdx)
    (hover : g.gameOver = false)
    (hci : ci < (g.getP pIdx).hand.length)
    (hlen : 1 < (g.getP pIdx).hand.length)
    (htop : g.deck.getTopDiscardCard = some top)
    (hplayed : (g.getP pIdx).hand.getD ci ⟨Color.red, Rank.zero⟩ = played)
    (hmatch : played.matches top g.currentWildColor = .ok true)
    (hrank : played.rank = Rank.reverse)
    (hnodup : played.color ≠ top.color ∨ played.rank ≠ top.rank) :
    (playTurn rand g pIdx (some (ci : Int)) ai ccfw).1 = .result true none ∧
    (playTurn rand g pIdx (some (ci : Int)) ai ccfw).2.playDirection =
      -g.playDirection ∧
    (playTurn rand g pIdx (some (ci : Int)) ai ccfw).2.currentPlayerIndex = pIdx := by
  have hplt : pIdx < g.players.length := by omega
  have hroute := playTurn_normal_routes rand g pIdx ci ai ccfw top hpend hcur hplt hover
    hci htop (by rw [hplayed]; exact hmatch)
  rw [hplayed] at hroute
  set g2 : GameState :=
    { g.setP pIdx { g.getP pIdx with hand := (g.getP pIdx).hand.eraseIdx ci } with
      deck := g.deck.addToDiscard played } with hg2
  have hw : played.isWild = false := by
    simp [Card.isWild, hrank]
  have hcnd : (played.rank == top.rank && played.color == top.color &&
      !played.isWild) = false := by
    rcases hnodup with h | h
    · have hcc : (played.color == top.color) = false := by simpa using h
      simp [hcc]
    · have hrr : (played.rank == top.rank) = false := by simpa using h
      simp [hrr]
  have hdup : duplicateStep g2 pIdx played (some top) = (g2, false) := by
    unfold duplicateStep
    dsimp only
    rw [hcnd]
    simp
  have hstep : playTurn rand g pIdx (some (ci : Int)) ai ccfw =
      normalPlayAfterDup rand g2 pIdx played ccfw := by
    rw [hroute]
    simp [hdup]
  rw [hstep]
  unfold normalPlayAfterDup
  dsimp only
  rw [hw]
  simp only [Bool.false_eq_true, not_false_eq_true, if_true, if_false]
  set g4 : GameState := { g2 with currentWildColor := none } with hg4
  set g5 : GameState := g4.setP pIdx (awardColorCounters (g4.getP pIdx) played) with hg5
  have hg5len : g5.players.length = 2 := by
    simp [hg5, hg4, hg2, GameState.setP, h2]
  have hg5n : g5.numPlayers = 2 := hg5len
  have hacts := getCardActions_reverse g5 played pIdx none hrank hg5n
  rw [hacts]
  have hpg4 : pIdx < g4.players.length := by
    simpa [hg4, hg2, GameState.setP] using hplt
  have hg5hand : (g5.getP pIdx).hand = (g.getP pIdx).hand.eraseIdx ci := by
    rw [hg5, getP_setP_self g4 pIdx _ hpg4, awardColorCounters_hand]
    have h1 : (g4.getP pIdx).hand =
        ((g.setP pIdx { g.getP pIdx with
          hand := (g.getP pIdx).hand.eraseIdx ci }).getP pIdx).hand := rfl
    rw [h1, getP_setP_self g pIdx _ hplt]
  have hlen1 : ((g.getP pIdx).hand.eraseIdx ci).length =
      (g.getP pIdx).hand.length - 1 :=
    List.length_eraseIdx_of_lt hci
  have hg5ne : (g5.getP pIdx).isHandEmpty = false := by
    rw [Bool.eq_false_iff]
    intro hE
    have hnil : (g5.getP pIdx).hand = [] := by
      simpa [Player.isHandEmpty, List.isEmpty_iff] using hE
    rw [hg5hand] at hnil
    have hl0 := congrArg List.length hnil
    rw [hlen1] at hl0
    simp at hl0
    omega
  have hrun : processActions rand
      (playTurnFuel g5 + ([({ type := .reverseDirection } : GameAction),
        { type := .skipPlayer, targetPlayerOffset := some 0 }] :
          List GameAction).length)
      g5 pIdx played false true
      [({ type := .reverseDirection } : GameAction),
        { type := .skipPlayer, targetPlayerOffset := some 0 }] =
      (.done true true none, { g5 with playDirection := -g5.playDirection }) := rfl
  have hgo : ({ g5 with playDirection := -g5.playDirection } : GameState).gameOver =
      false := hover
  split
  · next hcon => exact absurd hcon.1 (by simp [hg5ne])
  · rw [hrun]
    dsimp only
    rw [finishTurn_done_skip _ hgo]
    refine ⟨rfl, rfl, ?_⟩
    show ({ g5 with playDirection := -g5.playDirection } :
      GameState).advanceTurnMarker.advanceTurnMarker.currentPlayerIndex = pIdx
    set B : GameState := { g5 with playDirection := -g5.playDirection } with hB
    have hBn : B.players.length = 2 := hg5len
    have hBc : B.currentPlayerIndex = pIdx := hcur
    have hg5d : g5.playDirection = g.playDirection := rfl
    simp only [GameState.advanceTurnMarker, GameState.numPlayers]
    try dsimp only
    rw [hBn, hBc, hg5d]
    rcases hd with h1 | h1 <;> rw [h1] <;> omega

/-- A two-player state for exercising the Reverse effect: player 0 holds a
Red Reverse and a Blue 2, the discard top is a Red 5. -/
def c6State : GameState where
  deck := { cards := [], discardPile := [⟨Color.red, Rank.five⟩] }
  players :=
    [{ Player.fresh "A" with hand := [⟨Color.red, Rank.reverse⟩, ⟨Color.blue, Rank.two⟩] },
     { Player.fresh "B" with hand := [⟨Color.green, Rank.seven⟩] }]
  currentPlayerIndex := 0
  gameOver := false
  winner := none
  playDirection := 1
  currentWildColor := none
  pendingAction := none
  actionData := {}

/-- Witness for `two_player_reverse` at `c6State`. -/
theorem two_player_reverse_witness :
    (playTurn detRand c6State 0 (some (0 : Int)) none none).1 = .result true none ∧
    (playTurn detRand c6State 0 (some (0 : Int)) none none).2.playDirection = -1 ∧
    (playTurn detRand c6State 0 (some (0 : Int)) none none).2.currentPlayerIndex = 0 :=
  two_player_reverse detRand c6State 0 0 none none ⟨Color.red, Rank.five⟩
    ⟨Color.red, Rank.reverse⟩ rfl (by decide) (Or.inl rfl) rfl rfl rfl (by decide)
    (by decide) rfl rfl rfl rfl (Or.inr (by decide))

/-- The effect list of a wild card played with no color supplied: a
`CHOOSE_COLOR` action with no value, followed (for Wild Draw Four) by the
draw-four and skip actions. -/
theorem getCardActions_wild (g : GameState) (card : Card) (pIdx : Nat)
    (hw : card.isWild = true) :
    getCardActions g card pIdx none =
      ({ type := .chooseColor } : GameAction) ::
        (if card.rank == Rank.wildDrawFour then
          [{ type := .drawCards, value := some (.int 4), targetPlayerOffset := some 1 },
           { type := .skipPlayer, targetPlayerOffset := some 1 }]
        else []) := by
  rcases card with ⟨ccol, crank⟩
  have hr : crank = Rank.wild ∨ crank = Rank.wildDrawFour := by
    simpa [Card.isWild] using hw
  rcases hr with h | h <;> subst h <;> simp [getCardActions, Card.isWild]

/-- The state reached by suspending a standard wild play on `CHOOSE_COLOR`:
the played card has moved from the hand to the discard pile, color counters
are awarded (a no-op for a wild), the pending action and stashed context are
set, and the turn marker is untouched. -/
def wildSuspendState (g : GameState) (pIdx ci : Nat) (played : Card) : GameState :=
  let g2 : GameState :=
    { g.setP pIdx { g.getP pIdx with hand := (g.getP pIdx).hand.eraseIdx ci } with
      deck := g.deck.addToDiscard played }
  let g5 := g2.setP pIdx (awardColorCounters (g2.getP pIdx) played)
  { g5 with
    pendingAction := some { type := .chooseColor },
    actionData := { cardPlayed := some played,
                    remainingActions := some
                      (if played.rank == Rank.wildDrawFour then
                        [{ type := .drawCards, value := some (.int 4),
                           targetPlayerOffset := some 1 },
                         { type := .skipPlayer, targetPlayerOffset := some 1 }]
                      else []),
                    playerIdx := some pIdx, originalPlayerIdx := some pIdx } }

/-- A two-player state whose current player holds a single Wild card. -/
def c4State : GameState where
  deck := { cards := [], discardPile := [⟨Color.red, Rank.five⟩] }
  players :=
    [{ Player.fresh "A" with hand := [⟨Color.wild, Rank.wild⟩] },
     { Player.fresh "B" with hand := [⟨Color.green, Rank.seven⟩] }]
  currentPlayerIndex := 0
  gameOver := false
  winner := none
  playDirection := 1
  currentWildColor := none
  pendingAction := none
  actionData := {}

/-- Claim C4, counterexample.  When the legally played Wild is the player's
last card, `play_turn` does not suspend on `CHOOSE_COLOR`: the empty hand
overrides the effect list with `GAME_WIN`, the call ends the game and leaves
no pending action. -/
theorem c4_counterexample :
    (playTurn detRand c4State 0 (some (0 : Int)) none none).1 = .result true none ∧
    (playTurn detRand c4State 0 (some (0 : Int)) none none).2.pendingAction = none ∧
    (playTurn detRand c4State 0 (some (0 : Int)) none none).2.gameOver = true :=
  ⟨rfl, rfl, rfl⟩

/-- Neither branch of `_handle_draw_pile_empty` touches the active wild
color or the pending action. -/
theorem fields_handleDrawPileEmpty (rand : Rand) (g : GameState) (pIdx : Nat) :
    (handleDrawPileEmpty rand g pIdx).2.currentWildColor = g.currentWildColor ∧
    (handleDrawPileEmpty rand g pIdx).2.pendingAction = g.pendingAction := by
  simp only [handleDrawPileEmpty]
  repeat' split
  all_goals simp [GameState.setP]

/-- `player_draws_card` only moves cards between the deck and the drawing
player's hand: the active wild color and the pending action are unchanged. -/
theorem fields_playerDrawsCard (rand : Rand) (g : GameState) (pIdx n : Nat) :
    (playerDrawsCard rand g pIdx n).2.currentWildColor = g.currentWildColor ∧
    (playerDrawsCard rand g pIdx n).2.pendingAction = g.pendingAction := by
  induction n generalizing g with
  | zero => exact ⟨rfl, rfl⟩
  | succ n ih =>
    unfold playerDrawsCard
    rcases hhd : handleDrawPileEmpty rand g pIdx with ⟨can, g1⟩
    have hg1 : g1.currentWildColor = g.currentWildColor ∧
        g1.pendingAction = g.pendingAction := by
      have := fields_handleDrawPileEmpty rand g pIdx
      rw [hhd] at this
      exact this
    cases can with
    | false => simpa using hg1
    | true =>
      simp only [Bool.not_true, Bool.false_eq_true, if_false]
      rcases hdc : g1.deck.drawCard with _ | ⟨c, deck'⟩
      · simpa using hg1
      · simp only
        rcases hrec : playerDrawsCard rand
            (({ g1 with deck := deck' } : GameState).setP pIdx
              ((({ g1 with deck := deck' } : GameState).getP pIdx).addCardToHand c))
            pIdx n with ⟨rest, g4⟩
        have := ih (({ g1 with deck := deck' } : GameState).setP pIdx
          ((({ g1 with deck := deck' } : GameState).getP pIdx).addCardToHand c))
        rw [hrec] at this
        simpa [GameState.setP, hg1.1, hg1.2] using this

/-- The outcome of resolving a suspended standard wild play with a chosen
color: the active wild color is set, the pending action is cleared, the
stashed trailing effects run — for a Wild Draw Four the next player in the
play direction draws four via `player_draws_card` and the skip flag advances
the marker a second time — and the turn advances from the color-chooser. -/
def wildResumeState (rand : Rand) (T : GameState) (pIdx : Nat) (col : Color)
    (played : Card) : PTOutcome × GameState :=
  let g2 : GameState :=
    { T with
        currentWildColor := some col, pendingAction := none,
        actionData := ActionData.empty }
  if played.rank == Rank.wildDrawFour then
    let victimIdx := g2.playerIdxAtOffset pIdx (g2.playDirection * 1)
    let g3 := (playerDrawsCard rand g2 victimIdx 4).2
    (.result true none,
      ({ g3 with currentPlayerIndex := pIdx } :
        GameState).advanceTurnMarker.advanceTurnMarker)
  else
    (.result true none,
      ({ g2 with currentPlayerIndex := pIdx } : GameState).advanceTurnMarker)

/-- The resume outcome always succeeds with the chosen color active and no
pending action left, whichever wild was played. -/
theorem wildResumeState_fields (rand : Rand) (T : GameState) (pIdx : Nat)
    (col : Color) (played : Card) :
    (wildResumeState rand T pIdx col played).1 = .result true none ∧
    (wildResumeState rand T pIdx col played).2.currentWildColor = some col ∧
    (wildResumeState rand T pIdx col played).2.pendingAction = none := by
  unfold wildResumeState
  dsimp only
  split
  · refine ⟨rfl, ?_, ?_⟩
    · exact (fields_playerDrawsCard rand _ _ 4).1
    · exact (fields_playerDrawsCard rand _ _ 4).2
  · exact ⟨rfl, rfl, rfl⟩

/-- Resolution of a standard (non-Rank-6) `CHOOSE_COLOR` pending action:
the chooser supplies a non-wild color, the active wild color is set, the
pending action is cleared, and control reaches the stashed-effects loop and
the turn advance.  No part of the original play is re-validated. -/
theorem playTurn_chooseColor_resume (rand : Rand) (T : GameState) (pIdx : Nat)
    (col : Color) (played : Card) (rest : List GameAction)
    (hcur : T.currentPlayerIndex = pIdx) (hp : pIdx < T.players.length)
    (hover : T.gameOver = false)
    (hpend : T.pendingAction = some { type := .chooseColor })
    (had : T.actionData =
      { cardPlayed := some played, remainingActions := some rest,
        playerIdx := some pIdx, originalPlayerIdx := some pIdx })
    (hwild : played.isWild = true) (hcol : col ≠ Color.wild) :
    playTurn rand T pIdx none (some { chosenColor := some col }) none =
      (match remainingActionsLoop rand
          ({ T with
              currentWildColor := some col, pendingAction := none,
              actionData := ActionData.empty } : GameState) pIdx false rest with
        | .inr (m, g3) => (.exn m, g3)
        | .inl (g3, skipFlag) =>
          (.result true none,
            if skipFlag then
              ({ g3 with currentPlayerIndex := pIdx } :
                GameState).advanceTurnMarker.advanceTurnMarker
            else
              ({ g3 with currentPlayerIndex := pIdx } :
                GameState).advanceTurnMarker)) := by
  have h1 : T.currentPlayerIndex < T.numPlayers := by
    rw [hcur]
    exact hp
  have h3 : pIdx < T.numPlayers := hp
  unfold playTurn
  rw [if_pos h1]
  rw [if_neg (show ¬(T.pendingAction = none ∧ pIdx ≠ T.currentPlayerIndex) from
    fun hc => by rw [hpend] at hc; exact Option.noConfusion hc.1)]
  rw [if_neg (show ¬T.gameOver = true from by rw [hover]; simp)]
  rw [hpend]
  try dsimp only
  rw [had]
  try dsimp only
  simp only [Option.getD_some]
  rw [if_pos h3]
  try dsimp only
  unfold resolveChooseColor
  dsimp only [inputGet]
  rw [if_neg hcol]
  rw [had]
  try dsimp only
  simp only [Option.getD_some, Bool.false_eq_true, if_false]
  rw [if_pos h3]
  rw [if_neg (show ¬(pIdx ≠ pIdx) from fun h => h rfl)]
  try dsimp only
  rw [if_neg (not_not_intro hwild)]
  try dsimp only

/-- Evaluation of the stashed-effects loop on the stash a wild play leaves
behind: empty for a plain Wild; draw-four (next player) plus skip for a Wild
Draw Four. -/
theorem remainingActions_wild_eval (rand : Rand) (T : GameState) (pIdx : Nat)
    (col : Color) (played : Card) :
    (match remainingActionsLoop rand
        ({ T with
            currentWildColor := some col, pendingAction := none,
            actionData := ActionData.empty } : GameState) pIdx false
        (if played.rank == Rank.wildDrawFour then
          [{ type := .drawCards, value := some (.int 4), targetPlayerOffset := some 1 },
           { type := .skipPlayer, targetPlayerOffset := some 1 }]
        else []) with
      | .inr (m, g3) => ((.exn m : PTOutcome), g3)
      | .inl (g3, skipFlag) =>
        (.result true none,
          if skipFlag then
            ({ g3 with currentPlayerIndex := pIdx } :
              GameState).advanceTurnMarker.advanceTurnMarker
          else
            ({ g3 with currentPlayerIndex := pIdx } :
              GameState).advanceTurnMarker)) =
      wildResumeState rand T pIdx col played := by
  unfold wildResumeState
  by_cases hwdf : (played.rank == Rank.wildDrawFour) = true
  · simp only [hwdf]
    rfl
  · have hw2 : (played.rank == Rank.wildDrawFour) = false := Bool.eq_false_iff.mpr hwdf
    simp only [hw2]
    rfl

/-- Claim C4 (corrected).  Wild suspend/resume.  First part (the Wild is not
the player's last card): a legal wild play with no color supplied leaves the
card on the discard pile, sets a `CHOOSE_COLOR` pending action with the
trailing effects stashed (empty for a plain Wild; the draw-four and skip for
a Wild Draw Four), and does not advance the turn; a subsequent `play_turn`
call by the same player supplying a non-wild color reaches exactly the
`wildResumeState` outcome — the active wild color is set, the pending action
cleared, the stashed effects replayed (for a Wild Draw Four the next player
draws four via `player_draws_card` and the skip advances the marker a second
time), and the turn advances from the color-choosing player — without
re-validating the original play.  Second part (the Wild is the last card):
the call instead ends the game immediately with that player as winner and
leaves no pending action. -/
theorem wild_suspend_resume (rand : Rand) (g : GameState) (pIdx ci : Nat)
    (ai : Option ActionInput) (top played : Card)
    (hpend : g.pendingAction = none) (hcur : g.currentPlayerIndex = pIdx)
    (hplt : pIdx < g.players.length) (hover : g.gameOver = false)
    (hci : ci < (g.getP pIdx).hand.length)
    (htop : g.deck.getTopDiscardCard = some top)
    (hplayed : (g.getP pIdx).hand.getD ci ⟨Color.red, Rank.zero⟩ = played)
    (hwild : played.isWild = true) :
    (1 < (g.getP pIdx).hand.length →
      (playTurn rand g pIdx (some (ci : Int)) ai none).1 =
        .result true (some .chooseColor) ∧
      (playTurn rand g pIdx (some (ci : Int)) ai none).2.deck.discardPile =
        g.deck.discardPile ++ [played] ∧
      (playTurn rand g pIdx (some (ci : Int)) ai none).2.pendingAction =
        some { type := .chooseColor } ∧
      (playTurn rand g pIdx (some (ci : Int)) ai none).2.currentPlayerIndex =
        g.currentPlayerIndex ∧
      (playTurn rand g pIdx (some (ci : Int)) ai none).2.actionData.remainingActions =
        some (if played.rank == Rank.wildDrawFour then
          [{ type := .drawCards, value := some (.int 4), targetPlayerOffset := some 1 },
           { type := .skipPlayer, targetPlayerOffset := some 1 }]
        else []) ∧
      (∀ col : Color, col ≠ Color.wild →
        playTurn rand (playTurn rand g pIdx (some (ci : Int)) ai none).2 pIdx none
          (some { chosenColor := some col }) none =
          wildResumeState rand (playTurn rand g pIdx (some (ci : Int)) ai none).2
            pIdx col played ∧
        (playTurn rand (playTurn rand g pIdx (some (ci : Int)) ai none).2 pIdx none
          (some { chosenColor := some col }) none).2.currentWildColor = some col ∧
        (playTurn rand (playTurn rand g pIdx (some (ci : Int)) ai none).2 pIdx none
          (some { chosenColor := some col }) none).2.pendingAction = none)) ∧
    ((g.getP pIdx).hand.length = 1 →
      (playTurn rand g pIdx (some (ci : Int)) ai none).1 = .result true none ∧
      (playTurn rand g pIdx (some (ci : Int)) ai none).2.gameOver = true ∧
      (playTurn rand g pIdx (some (ci : Int)) ai none).2.winner = some pIdx ∧
      (playTurn rand g pIdx (some (ci : Int)) ai none).2.pendingAction = none) := by
  have hmatch' : played.matches top g.currentWildColor = .ok true := by
    simp [Card.matches, hwild]
  have hroute := playTurn_normal_routes rand g pIdx ci ai none top hpend hcur hplt hover
    hci htop (by rw [hplayed]; exact hmatch')
  rw [hplayed] at hroute
  set g2 : GameState :=
    { g.setP pIdx { g.getP pIdx with hand := (g.getP pIdx).hand.eraseIdx ci } with
      deck := g.deck.addToDiscard played } with hg2
  have hcnd : (played.rank == top.rank && played.color == top.color &&
      !played.isWild) = false := by
    simp [hwild]
  have hdup : duplicateStep g2 pIdx played (some top) = (g2, false) := by
    unfold duplicateStep
    dsimp only
    rw [hcnd]
    simp
  have hstep : playTurn rand g pIdx (some (ci : Int)) ai none =
      normalPlayAfterDup rand g2 pIdx played none := by
    rw [hroute]
    simp [hdup]
  have hpg2 : pIdx < g2.players.length := by
    simpa [hg2, GameState.setP] using hplt
  have hGGhand : ((g2.setP pIdx (awardColorCounters (g2.getP pIdx) played)).getP
      pIdx).hand = (g.getP pIdx).hand.eraseIdx ci := by
    rw [getP_setP_self g2 pIdx _ hpg2, awardColorCounters_hand]
    have h1 : (g2.getP pIdx).hand =
        ((g.setP pIdx { g.getP pIdx with
          hand := (g.getP pIdx).hand.eraseIdx ci }).getP pIdx).hand := rfl
    rw [h1, getP_setP_self g pIdx _ hplt]
  have hacts := getCardActions_wild
    (g2.setP pIdx (awardColorCounters (g2.getP pIdx) played)) played pIdx hwild
  refine ⟨?_, ?_⟩
  · intro hlen
    have hGGne : ((g2.setP pIdx (awardColorCounters (g2.getP pIdx) played)).getP
        pIdx).isHandEmpty = false := by
      rw [Bool.eq_false_iff]
      intro hE
      have hnil : ((g2.setP pIdx (awardColorCounters (g2.getP pIdx) played)).getP
          pIdx).hand = [] := by
        simpa [Player.isHandEmpty, List.isEmpty_iff] using hE
      rw [hGGhand] at hnil
      have hl0 := congrArg List.length hnil
      rw [List.length_eraseIdx_of_lt hci] at hl0
      simp at hl0
      omega
    have hov : ¬(((g2.setP pIdx (awardColorCounters (g2.getP pIdx) played)).getP
        pIdx).isHandEmpty = true ∧
        ¬((({ type := .chooseColor } : GameAction) ::
          (if played.rank == Rank.wildDrawFour then
            [{ type := .drawCards, value := some (.int 4), targetPlayerOffset := some 1 },
             { type := .skipPlayer, targetPlayerOffset := some 1 }]
          else [])).any (fun a => a.type == ActionType.gameWin) = true)) :=
      fun hc => absurd hc.1 (by simp [hGGne])
    have hrunS : processActions rand
        (playTurnFuel (g2.setP pIdx (awardColorCounters (g2.getP pIdx) played)) +
          (({ type := .chooseColor } : GameAction) ::
            (if played.rank == Rank.wildDrawFour then
              [{ type := .drawCards, value := some (.int 4), targetPlayerOffset := some 1 },
               { type := .skipPlayer, targetPlayerOffset := some 1 }]
            else [])).length)
        (g2.setP pIdx (awardColorCounters (g2.getP pIdx) played)) pIdx played false true
        (({ type := .chooseColor } : GameAction) ::
          (if played.rank == Rank.wildDrawFour then
            [{ type := .drawCards, value := some (.int 4), targetPlayerOffset := some 1 },
             { type := .skipPlayer, targetPlayerOffset := some 1 }]
          else [])) =
        (.ret true (some .chooseColor), wildSuspendState g pIdx ci played) := rfl
    have hfull : playTurn rand g pIdx (some (ci : Int)) ai none =
        (.result true (some .chooseColor), wildSuspendState g pIdx ci played) := by
      rw [hstep]
      unfold normalPlayAfterDup
      dsimp only
      rw [if_neg (not_not_intro hwild), if_pos hwild]
      rw [hacts]
      rw [if_neg hov]
      rw [hrunS]
      rfl
    refine ⟨?_, ?_, ?_, ?_, ?_, ?_⟩
    · rw [hfull]
    · rw [hfull]
      rfl
    · rw [hfull]
      rfl
    · rw [hfull]
      rfl
    · rw [hfull]
      rfl
    · intro col hcol
      rw [hfull]
      dsimp only
      have hScur : (wildSuspendState g pIdx ci played).currentPlayerIndex = pIdx := hcur
      have hln2 : (wildSuspendState g pIdx ci played).players.length =
          g.players.length := by
        simp [wildSuspendState, GameState.setP]
      have hSp2 : pIdx < (wildSuspendState g pIdx ci played).players.length := by
        rw [hln2]
        exact hplt
      have hres := playTurn_chooseColor_resume rand (wildSuspendState g pIdx ci played)
        pIdx col played
        (if played.rank == Rank.wildDrawFour then
          [{ type := .drawCards, value := some (.int 4), targetPlayerOffset := some 1 },
           { type := .skipPlayer, targetPlayerOffset := some 1 }]
        else []) hScur hSp2 hover rfl rfl hwild hcol
      rw [hres]
      rw [remainingActions_wild_eval rand (wildSuspendState g pIdx ci played) pIdx
        col played]
      refine ⟨rfl, ?_, ?_⟩
      · exact (wildResumeState_fields rand (wildSuspendState g pIdx ci played) pIdx
          col played).2.1
      · exact (wildResumeState_fields rand (wildSuspendState g pIdx ci played) pIdx
          col played).2.2
  · intro hlen1
    have hhe : ((g2.setP pIdx (awardColorCounters (g2.getP pIdx) played)).getP
        pIdx).isHandEmpty = true := by
      have h0 : ((g.getP pIdx).hand.eraseIdx ci).length = 0 := by
        rw [List.length_eraseIdx_of_lt hci]
        omega
      have hnil : (g.getP pIdx).hand.eraseIdx ci = [] := by
        cases hE : (g.getP pIdx).hand.eraseIdx ci with
        | nil => rfl
        | cons x xs =>
          rw [hE] at h0
          simp at h0
      simp [Player.isHandEmpty, hGGhand, hnil]
    have hnowin : ((({ type := .chooseColor } : GameAction) ::
        (if played.rank == Rank.wildDrawFour then
          [{ type := .drawCards, value := some (.int 4), targetPlayerOffset := some 1 },
           { type := .skipPlayer, targetPlayerOffset := some 1 }]
        else [])).any (fun a => a.type == ActionType.gameWin)) = false := by
      by_cases hwdf : (played.rank == Rank.wildDrawFour) = true
      · simp only [hwdf]
        rfl
      · have hw2 : (played.rank == Rank.wildDrawFour) = false :=
          Bool.eq_false_iff.mpr hwdf
        simp only [hw2]
        rfl
    have hovP : ((g2.setP pIdx (awardColorCounters (g2.getP pIdx) played)).getP
        pIdx).isHandEmpty = true ∧
        ¬((({ type := .chooseColor } : GameAction) ::
          (if played.rank == Rank.wildDrawFour then
            [{ type := .drawCards, value := some (.int 4), targetPlayerOffset := some 1 },
             { type := .skipPlayer, targetPlayerOffset := some 1 }]
          else [])).any (fun a => a.type == ActionType.gameWin) = true) :=
      ⟨hhe, fun h => by rw [hnowin] at h; exact Bool.false_ne_true h⟩
    have hrunW : processActions rand
        (playTurnFuel (g2.setP pIdx (awardColorCounters (g2.getP pIdx) played)) +
          ([({ type := .gameWin } : GameAction)]).length)
        (g2.setP pIdx (awardColorCounters (g2.getP pIdx) played)) pIdx played false true
        [({ type := .gameWin } : GameAction)] =
        (.ret true none,
          { g2.setP pIdx (awardColorCounters (g2.getP pIdx) played) with
            gameOver := true, winner := some pIdx }) := rfl
    have hfullB : playTurn rand g pIdx (some (ci : Int)) ai none =
        (.result true none,
          { g2.setP pIdx (awardColorCounters (g2.getP pIdx) played) with
            gameOver := true, winner := some pIdx }) := by
      rw [hstep]
      unfold normalPlayAfterDup
      dsimp only
      rw [if_neg (not_not_intro hwild), if_pos hwild]
      rw [hacts]
      rw [if_pos hovP]
      rw [hrunW]
      rfl
    refine ⟨?_, ?_, ?_, ?_⟩
    · rw [hfullB]
    · rw [hfullB]
    · rw [hfullB]
    · rw [hfullB]
      exact hpend

/-- A two-player state whose current player holds a Wild and a Blue 2. -/
def c4bState : GameState where
  deck := { cards := [], discardPile := [⟨Color.red, Rank.five⟩] }
  players :=
    [{ Player.fresh "A" with hand := [⟨Color.wild, Rank.wild⟩, ⟨Color.blue, Rank.two⟩] },
     { Player.fresh "B" with hand := [⟨Color.green, Rank.seven⟩] }]
  currentPlayerIndex := 0
  gameOver := false
  winner := none
  playDirection := 1
  currentWildColor := none
  pendingAction := none
  actionData := {}

/-- A two-player state whose current player holds a Wild Draw Four and a
Blue 2. -/
def c4cState : GameState where
  deck := { cards := [], discardPile := [⟨Color.red, Rank.five⟩] }
  players :=
    [{ Player.fresh "A" with
        hand := [⟨Color.wild, Rank.wildDrawFour⟩, ⟨Color.blue, Rank.two⟩] },
     { Player.fresh "B" with hand := [⟨Color.green, Rank.seven⟩] }]
  currentPlayerIndex := 0
  gameOver := false
  winner := none
  playDirection := 1
  currentWildColor := none
  pendingAction := none
  actionData := {}

/-- Witness for `wild_suspend_resume`: a plain Wild at `c4bState` (suspend,
then resume with green), a Wild Draw Four at `c4cState` (resume runs the
stashed draw and skip), and a last-card Wild at `c4State` (immediate win). -/
theorem wild_suspend_resume_witness :
    (playTurn detRand c4bState 0 (some (0 : Int)) none none).1 =
      .result true (some .chooseColor) ∧
    (playTurn detRand (playTurn detRand c4bState 0 (some (0 : Int)) none none).2 0 none
      (some { chosenColor := some Color.green }) none).2.currentWildColor =
      some Color.green ∧
    (playTurn detRand (playTurn detRand c4cState 0 (some (0 : Int)) none none).2 0 none
      (some { chosenColor := some Color.green }) none).1 = .result true none ∧
    (playTurn detRand (playTurn detRand c4cState 0 (some (0 : Int)) none none).2 0 none
      (some { chosenColor := some Color.green }) none).2.currentWildColor =
      some Color.green ∧
    (playTurn detRand c4State 0 (some (0 : Int)) none none).2.gameOver = true ∧
    (playTurn detRand c4State 0 (some (0 : Int)) none none).2.winner = some 0 := by
  have hA := (wild_suspend_resume detRand c4bState 0 0 none ⟨Color.red, Rank.five⟩
    ⟨Color.wild, Rank.wild⟩ rfl rfl (by decide) rfl (by decide) rfl rfl rfl).1
    (by decide)
  have hAres := hA.2.2.2.2.2 Color.green (by decide)
  have hC := (wild_suspend_resume detRand c4cState 0 0 none ⟨Color.red, Rank.five⟩
    ⟨Color.wild, Rank.wildDrawFour⟩ rfl rfl (by decide) rfl (by decide) rfl rfl rfl).1
    (by decide)
  have hCres := hC.2.2.2.2.2 Color.green (by decide)
  have hB := (wild_suspend_resume detRand c4State 0 0 none ⟨Color.red, Rank.five⟩
    ⟨Color.wild, Rank.wild⟩ rfl rfl (by decide) rfl (by decide) rfl rfl rfl).2 rfl
  refine ⟨hA.1, hAres.2.1, ?_, hCres.2.1, hB.2.1, hB.2.2.1⟩
  exact (congrArg Prod.fst hCres.1).trans rfl

/-- A two-player state with a pending Blue-3 `DISCARD_FROM_PLAYER_HAND`
action: player 1 is the chooser, player 0 the victim with a four-card hand. -/
def c3State : GameState where
  deck := { cards := [], discardPile := [⟨Color.blue, Rank.three⟩] }
  players :=
    [{ Player.fresh "A" with
        hand := [⟨Color.red, Rank.one⟩, ⟨Color.yellow, Rank.three⟩,
                 ⟨Color.green, Rank.seven⟩, ⟨Color.blue, Rank.nine⟩] },
     { Player.fresh "B" with hand := [⟨Color.blue, Rank.five⟩] }]
  currentPlayerIndex := 0
  gameOver := false
  winner := none
  playDirection := 1
  currentWildColor := none
  pendingAction := some { type := .discardFromPlayerHand }
  actionData := { originalPlayerIdx := some 0, chooserIdx := some 1,
                  victimIdx := some 0, count := some 2 }

/-- Claim C3, refuting instance (code bug).  The chooser answers the pending
Blue-3 action with indices `[2, -1]`: the pair passes the distinct-count
check, index 2 is popped from the victim's hand, then `-1` fails the bounds
check and the resolver rolls back by *appending* the removed card, returning
a structured failure — but the victim's hand order has changed from
`[Red 1, Yellow 3, Green 7, Blue 9]` to `[Red 1, Yellow 3, Blue 9, Green 7]`,
so the rejected input is not atomic. -/
theorem c3_code_bug :
    (playTurn detRand c3State 1 none
      (some { chosenIndicesFromVictim := some [2, -1] }) none).1 =
      .result false (some .discardFromPlayerHand) ∧
    ((playTurn detRand c3State 1 none
      (some { chosenIndicesFromVictim := some [2, -1] }) none).2.getP 0).hand =
      [⟨Color.red, Rank.one⟩, ⟨Color.yellow, Rank.three⟩,
       ⟨Color.blue, Rank.nine⟩, ⟨Color.green, Rank.seven⟩] ∧
    ((playTurn detRand c3State 1 none
      (some { chosenIndicesFromVictim := some [2, -1] }) none).2.getP 0).hand ≠
      (c3State.getP 0).hand :=
  ⟨rfl, rfl, by decide⟩

end BasedUno
